import Mathlib

/-!
# Verification of the instance-stack-curator lifecycle engine

Shallow embedding of the curator's core (internal/curator/curator.go) and of the
sequencing logic of the startup and shutdown commands (cmd/startup.go and the
shutdown command source).  Remote cloud collaborators (EC2 / Auto Scaling APIs)
are modelled as an environment record of pure response functions plus a list of
probe events for the waiter loops; every call the engine issues is recorded in
an explicit trace so that ordering and frame properties can be stated.

Go `time.Duration` values are embedded as `Int` nanoseconds.  Go `int32`
arithmetic (ASG min/max sizes) is embedded as `Int` with an explicit wrap at
2^32 where the source performs `int32` conversions or arithmetic.  Go `error`
values are embedded as `String`.
-/

namespace Curator

/-- One second in nanoseconds, matching Go `time.Second`. -/
def second : Int := 1000000000

/-- `DefaultWaitDuration time.Duration = 10 * time.Minute` (curator.go). -/
def DefaultWaitDuration : Int := 600 * second

/-- `LifecycleStateNameInService string = "InService"` (curator.go). -/
def LifecycleStateNameInService : String := "InService"

/-- `LifecycleStateNameStandby string = "Standby"` (curator.go). -/
def LifecycleStateNameStandby : String := "Standby"

/-- Two's-complement wrap of an integer into the `int32` range, used wherever
the Go source converts (`int32(len(...))`) or computes in `int32`.  It is
defined by cases on the `Int` constructors so that it evaluates cheaply;
`wrap32_eq_mod` below proves it equal to the arithmetic characterisation
`(x + 2^31) % 2^32 - 2^31`. -/
def wrap32 (x : Int) : Int :=
  match x with
  | .ofNat n =>
    if n % 4294967296 < 2147483648 then .ofNat (n % 4294967296)
    else .negSucc (4294967295 - n % 4294967296)
  | .negSucc m =>
    if (m + 1) % 4294967296 = 0 then .ofNat 0
    else if 4294967296 - (m + 1) % 4294967296 < 2147483648 then
      .ofNat (4294967296 - (m + 1) % 4294967296)
    else .negSucc (4294967295 - (4294967296 - (m + 1) % 4294967296))

/-! ## Data model

Typed shapes of the Auto Scaling / EC2 responses the engine consumes. -/

/-- One element of `DescribeAutoScalingInstancesOutput.AutoScalingInstances`:
the fields the engine dereferences (`InstanceId`, `AutoScalingGroupName`,
`LifecycleState`). -/
structure AsgInstanceDetails where
  instanceId : String
  autoScalingGroupName : String
  lifecycleState : String
deriving DecidableEq

/-- One element of `DescribeAutoScalingGroupsOutput.AutoScalingGroups`: the
fields the engine reads (`AutoScalingGroupName`, `MinSize`, `MaxSize`,
`Instances`).  `instances` lists the member instance ids; its length is
`len(g.Instances)` in the source. -/
structure AsgGroupRecord where
  autoScalingGroupName : String
  minSize : Int
  maxSize : Int
  instances : List String
deriving DecidableEq

/-- An EC2 instance as consumed by the sequencer: only `InstanceId` matters to
the control flow (the other dereferenced fields feed console reporting). -/
structure Ec2Instance where
  instanceId : String
deriving DecidableEq

/-- `types.Group`: name, filters, and the run-time resolved member instances. -/
structure Group where
  name : String
  filters : List String
  instances : List Ec2Instance
deriving DecidableEq

/-- `types.Stack`: name, baseline filters, ordered groups (region / role are
credential plumbing outside the engine). -/
structure Stack where
  name : String
  filters : List String
  groups : List Group
deriving DecidableEq

/-- The extra `instance-state-name` filter both commands append to the combined
stack+group filters (running, stopped). -/
def instanceStateFilter : String := "instance-state-name:running,stopped"

/-! ## JMESPath result model

`jmespath.Search("AutoScalingInstances[].LifecycleState", output)` returns an
untyped value; the retryable predicates case on its dynamic shape.  `JMESValue`
captures exactly the shapes those predicates distinguish: a list (of elements
that are `*string` or not) or a non-list value. -/

/-- An element of a JMESPath projection result: either a `*string` holding `s`,
or a value of some other dynamic type. -/
inductive JMESElem where
  | strPtr (s : String)
  | other (typeName : String)
deriving DecidableEq

/-- A JMESPath search result: a list of elements, or a non-list value of some
other dynamic type. -/
inductive JMESValue where
  | list (elems : List JMESElem)
  | other (typeName : String)
deriving DecidableEq

/-- The JMESPath search `AutoScalingInstances[].LifecycleState` evaluated on a
well-typed describe output: a list of `*string` lifecycle states. -/
def jmesLifecycleStates (out : List AsgInstanceDetails) : JMESValue :=
  .list (out.map fun i => .strPtr i.lifecycleState)

/-- Extraction of the string list from a JMESPath value, when well-formed. -/
def strList : List JMESElem → Option (List String)
  | [] => some []
  | .strPtr s :: es =>
    match strList es with
    | some ss => some (s :: ss)
    | none => none
  | .other _ :: _ => none

/-- The lifecycle states a JMESPath value denotes, `none` when malformed. -/
def statesOf : JMESValue → Option (List String)
  | .list elems => strList elems
  | .other _ => none

/-! ## Lifecycle retryable predicates

`autoScalingInstanceStandbyStateRetryable` and
`AutoScalingInstanceInServiceStateRetryable` (curator.go) have identical
bodies up to the target lifecycle-state constant; they are embedded as one
target-parametric function.  The Go result pair `(bool, error)` becomes
`Bool × Option String`: `(false, none)` is terminal success, `(true, none)`
is continue-retrying, `(_, some msg)` is a predicate error. -/

/-- The element scan of the retryable body: walks the projected list, failing
on a non-`*string` element, otherwise reporting whether every state equals
`target` (the Go `match` flag restricted to the loop). -/
def checkElems (target : String) : List JMESElem → Except String Bool
  | [] => .ok true
  | .strPtr s :: es =>
    match checkElems target es with
    | .ok b => .ok ((s == target) && b)
    | .error e => .error e
  | .other _ :: _ => .error "waiter comparator expected string value"

/-- Body of the retryable predicates after the `err == nil` guard and the
JMESPath search: non-list result is a predicate error; `match` is true iff
the list is non-empty and every element equals `target`; `match` yields
`(false, nil)` (terminal success), otherwise `(true, nil)` (retry). -/
def stateRetryableCore (target : String) (pathValue : JMESValue) : Bool × Option String :=
  match pathValue with
  | .other _ => (false, some "waiter comparator expected list")
  | .list elems =>
    match checkElems target elems with
    | .error e => (false, some e)
    | .ok allEq =>
      if !elems.isEmpty && allEq then (false, none) else (true, none)

/-- The full retryable predicate over the probe's `(output, err)` pair: when
the probe itself errored the Go body skips the `err == nil` block and falls
through to `return true, nil` (continue retrying). -/
def lifecycleStateRetryable (target : String)
    (probe : Except String (List AsgInstanceDetails)) : Bool × Option String :=
  match probe with
  | .error _ => (true, none)
  | .ok out => stateRetryableCore target (jmesLifecycleStates out)

/-- `autoScalingInstanceStandbyStateRetryable` (curator.go). -/
def autoScalingInstanceStandbyStateRetryable
    (probe : Except String (List AsgInstanceDetails)) : Bool × Option String :=
  lifecycleStateRetryable LifecycleStateNameStandby probe

/-- `AutoScalingInstanceInServiceStateRetryable` (curator.go). -/
def AutoScalingInstanceInServiceStateRetryable
    (probe : Except String (List AsgInstanceDetails)) : Bool × Option String :=
  lifecycleStateRetryable LifecycleStateNameInService probe

/-! ## Poll-Waiter

The two `WaitForOutput` methods (standby / in-service waiters, curator.go)
are identical up to the default retryable and the waiter name in the timeout
message; they are embedded as one function parameterised by both.

The environment supplies one `ProbeEvent` per loop iteration: the probe's
result, the wall time the probe consumed (`time.Since(start)`), and the
backoff delay chosen for that attempt.  The delay is environment-supplied
because `smithywaiter.ComputeDelay` draws cryptographic random jitter; the
engine only subtracts it from the remaining budget.  An exhausted event list
is a model artifact (`outOfTrace`), reachable only when the loop would probe
more often than the supplied trace allows. -/

/-- Options record: `MinDelay` and `MaxDelay` of the waiter options struct. -/
structure WaiterOptions where
  minDelay : Int
  maxDelay : Int
deriving DecidableEq

/-- One waiter loop iteration as seen from the environment. -/
structure ProbeEvent where
  result : Except String (List AsgInstanceDetails)
  elapsed : Int
  delay : Int

/-- Outcome of a waiter run. -/
inductive WaitOutcome where
  | success (out : Option (List AsgInstanceDetails))
  | failure (msg : String)
  | outOfTrace
deriving DecidableEq

/-- Waiter result together with the number of probe invocations issued. -/
structure WaitResult where
  outcome : WaitOutcome
  probesUsed : Nat
deriving DecidableEq

/-- `"maximum wait time for waiter must be greater than zero"` (curator.go). -/
def waiterMaxWaitMsg : String := "maximum wait time for waiter must be greater than zero"

/-- The `MinDelay > MaxDelay` configuration error of `WaitForOutput`
(formatted delay values elided). -/
def waiterDelayMsg : String :=
  "minimum waiter delay must be lesser than or equal to maximum waiter delay"

/-- The timeout error `"exceeded max wait time for <name> waiter"`. -/
def waiterTimeoutMsg (name : String) : String :=
  "exceeded max wait time for " ++ name ++ " waiter"

/-- The retry loop of `WaitForOutput`: probe, evaluate the retryable, abort on
predicate error, return on terminal success, otherwise subtract elapsed time,
break to the timeout error when the remaining budget is below `minDelay` or
exhausted, else subtract the backoff delay and continue. -/
def waitLoop (name : String)
    (retryable : Except String (List AsgInstanceDetails) → Bool × Option String)
    (minDelay : Int) : Int → List ProbeEvent → WaitResult
  | _, [] => ⟨.outOfTrace, 0⟩
  | remaining, e :: es =>
    match retryable e.result with
    | (_, some msg) => ⟨.failure msg, 1⟩
    | (retry, none) =>
      if retry then
        let remaining1 := remaining - e.elapsed
        if remaining1 < minDelay ∨ remaining1 ≤ 0 then ⟨.failure (waiterTimeoutMsg name), 1⟩
        else
          let r := waitLoop name retryable minDelay (remaining1 - e.delay) es
          ⟨r.outcome, r.probesUsed + 1⟩
      else ⟨.success e.result.toOption, 1⟩

/-- The `MaxDelay` defaulting of `WaitForOutput`:
`if options.MaxDelay <= 0 { options.MaxDelay = 120 * time.Second }`. -/
def resolvedMaxDelay (opts : WaiterOptions) : Int :=
  if opts.maxDelay ≤ 0 then 120 * second else opts.maxDelay

/-- `WaitForOutput` (both waiters, curator.go): reject a non-positive maximum
wait duration; default `MaxDelay` to 120 seconds when it resolves ≤ 0; reject
`MinDelay > MaxDelay` (compared against the defaulted value); then run the
retry loop over the wait budget. -/
def waitForOutput (name : String)
    (retryable : Except String (List AsgInstanceDetails) → Bool × Option String)
    (opts : WaiterOptions) (maxWaitDur : Int) (events : List ProbeEvent) : WaitResult :=
  if maxWaitDur ≤ 0 then ⟨.failure waiterMaxWaitMsg, 0⟩
  else if opts.minDelay > resolvedMaxDelay opts then ⟨.failure waiterDelayMsg, 0⟩
  else waitLoop name retryable opts.minDelay maxWaitDur events

/-- `AutoScalingInstanceStandbyWaiter.WaitForOutput` with the constructor's
default retryable. -/
def standbyWaiterWaitForOutput (opts : WaiterOptions) (maxWaitDur : Int)
    (events : List ProbeEvent) : WaitResult :=
  waitForOutput "AutoScalingInstanceStandby" autoScalingInstanceStandbyStateRetryable
    opts maxWaitDur events

/-- `AutoScalingInstanceInServiceWaiter.WaitForOutput` with the constructor's
default retryable. -/
def inServiceWaiterWaitForOutput (opts : WaiterOptions) (maxWaitDur : Int)
    (events : List ProbeEvent) : WaitResult :=
  waitForOutput "AutoScalingInstanceInService" AutoScalingInstanceInServiceStateRetryable
    opts maxWaitDur events

/-- Waiter options as constructed by `NewAutoScalingInstance*Waiter`:
`MinDelay = 15s`, `MaxDelay = 120s`. -/
def defaultWaiterOptions : WaiterOptions := ⟨15 * second, 120 * second⟩

/-- Waiter options at the `PrepareInstanceGroupFor*` call sites: default
`MinDelay = 15s`, `MaxDelay` overridden to `time.Minute`. -/
def curatorWaiterOptions : WaiterOptions := ⟨15 * second, 60 * second⟩

/-! ## The external collaborators and the call trace

The EC2 / Auto Scaling collaborators are an environment of pure response
functions (each remote call either errors or answers).  The waiter probe
traffic is supplied as event lists.  Every call the engine issues is recorded
as an `APICall`; waiter probe traffic is summarised by a single wait marker.
Console prints are recorded as report events. -/

/-- A call issued (or report emitted) by the engine, in program order. -/
inductive APICall where
  | describeEc2Instances (filters : List String)
  | startInstances (ids : List String)
  | stopInstances (ids : List String)
  | ec2StatusWait (ids : List String)
  | ec2StoppedWait (ids : List String)
  | describeAsgInstances (ids : List String)
  | describeAsgGroups (names : List String)
  | updateAsg (name : String) (minSize maxSize : Option Int)
  | enterStandby (name : String) (ids : List String) (decrement : Bool)
  | exitStandby (name : String) (ids : List String)
  | standbyWait (ids : List String)
  | inServiceWait (ids : List String)
  | skipReport (groupName : String)
  | groupReport (groupName : String)
deriving DecidableEq

/-- Whether a call mutates remote state (start/stop, standby moves, ASG
capacity updates); describes, waits and reports are read-only. -/
def APICall.isMutating : APICall → Bool
  | .startInstances _ => true
  | .stopInstances _ => true
  | .updateAsg _ _ _ => true
  | .enterStandby _ _ _ => true
  | .exitStandby _ _ => true
  | _ => false

/-- The environment of collaborator responses for one run.  Each field is the
pure response of the corresponding remote call; `standbyProbes` and
`inServiceProbes` feed the curator's waiter loops; `statusOkWait` and
`stoppedWait` summarise the outcome of the SDK-provided EC2 waiters the
commands invoke. -/
structure Client where
  describeInstances : List String → Except String (List Ec2Instance)
  startInstances : List String → Except String Unit
  stopInstances : List String → Except String Unit
  statusOkWait : List String → Except String Unit
  stoppedWait : List String → Except String Unit
  describeAutoScalingInstances : List String → Except String (List AsgInstanceDetails)
  describeAutoScalingGroups : List String → Except String (List AsgGroupRecord)
  updateAutoScalingGroup : String → Option Int → Option Int → Except String Unit
  enterStandby : String → List String → Bool → Except String Unit
  exitStandby : String → List String → Except String Unit
  standbyProbes : List ProbeEvent
  inServiceProbes : List ProbeEvent

/-- The environment's verdict on one recorded call: `some e` when replaying
the call against its response function yields the error `e`, `none` when it
succeeds or is a report or curator-waiter marker (whose probe traffic is
modelled separately by the waiter development). -/
def callError (client : Client) : APICall → Option String
  | .describeEc2Instances filters =>
    match client.describeInstances filters with
    | .error e => some e
    | .ok _ => none
  | .startInstances ids =>
    match client.startInstances ids with
    | .error e => some e
    | .ok _ => none
  | .stopInstances ids =>
    match client.stopInstances ids with
    | .error e => some e
    | .ok _ => none
  | .ec2StatusWait ids =>
    match client.statusOkWait ids with
    | .error e => some e
    | .ok _ => none
  | .ec2StoppedWait ids =>
    match client.stoppedWait ids with
    | .error e => some e
    | .ok _ => none
  | .describeAsgInstances ids =>
    match client.describeAutoScalingInstances ids with
    | .error e => some e
    | .ok _ => none
  | .describeAsgGroups names =>
    match client.describeAutoScalingGroups names with
    | .error e => some e
    | .ok _ => none
  | .updateAsg name minSize maxSize =>
    match client.updateAutoScalingGroup name minSize maxSize with
    | .error e => some e
    | .ok _ => none
  | .enterStandby name ids decrement =>
    match client.enterStandby name ids decrement with
    | .error e => some e
    | .ok _ => none
  | .exitStandby name ids =>
    match client.exitStandby name ids with
    | .error e => some e
    | .ok _ => none
  | .standbyWait _ => none
  | .inServiceWait _ => none
  | .skipReport _ => none
  | .groupReport _ => none

/-! ## Partitioning eligible instances by ASG

`autoscalingInstances` is a Go `map[string][]string` built by appending each
eligible instance id under its owning ASG name.  It is embedded as an
association list in first-insertion order (Go map iteration order is
unspecified; the claims proved here do not depend on the relative order of
distinct ASGs). -/

/-- Append `v` under key `k`, creating the entry at the end when absent. -/
def insertAssoc (k v : String) : List (String × List String) → List (String × List String)
  | [] => [(k, [v])]
  | (k2, vs) :: rest =>
    if k2 = k then (k2, vs ++ [v]) :: rest else (k2, vs) :: insertAssoc k v rest

/-- Lookup in the association list (`instanceIds, ok := autoscalingInstances[name]`). -/
def lookupAssoc (assoc : List (String × List String)) (k : String) : Option (List String) :=
  match assoc with
  | [] => none
  | (k2, vs) :: rest => if k2 = k then some vs else lookupAssoc rest k

/-- The filter-and-partition of the describe output: only instances whose
lifecycle state equals `target` are eligible, grouped by owning ASG name. -/
def groupByAsg (target : String) (l : List AsgInstanceDetails) : List (String × List String) :=
  l.foldl
    (fun acc i =>
      if i.lifecycleState = target then insertAssoc i.autoScalingGroupName i.instanceId acc
      else acc)
    []

/-! ## Capacity Controller: PrepareInstanceGroupForShutdown -/

/-- The new `MinSize` of the shutdown path: `*g.MinSize - int32(len(instanceIds))`
computed in `int32` arithmetic, floored at 0. -/
def shutdownMinTarget (minSize : Int) (n : Nat) : Int :=
  if wrap32 (minSize - wrap32 n) < 0 then 0 else wrap32 (minSize - wrap32 n)

/-- The conditional min-size lowering of the shutdown path: issued (before
entering standby) only when the current `MinSize` is positive. -/
def condMinUpdate (client : Client) (g : AsgGroupRecord) (ids : List String) :
    Except String Unit × List APICall :=
  if 0 < g.minSize then
    (client.updateAutoScalingGroup g.autoScalingGroupName
        (some (shutdownMinTarget g.minSize ids.length)) none,
      [.updateAsg g.autoScalingGroupName (some (shutdownMinTarget g.minSize ids.length)) none])
  else (.ok (), [])

/-- The per-ASG loop of `PrepareInstanceGroupForShutdown`: for each described
ASG that owns eligible instances, lower `MinSize` by the eligible count
(floored at 0, in `int32` arithmetic) when the current `MinSize` is positive,
then issue `EnterStandby` with the desired-capacity decrement; accumulate the
ids to wait for.  Any call error aborts the loop. -/
def shutdownAsgLoop (client : Client) (assoc : List (String × List String)) :
    List AsgGroupRecord → Except String Unit × List APICall × List String
  | [] => (.ok (), [], [])
  | g :: rest =>
    match lookupAssoc assoc g.autoScalingGroupName with
    | none => shutdownAsgLoop client assoc rest
    | some ids =>
      match condMinUpdate client g ids with
      | (.error e, t) => (.error e, t, [])
      | (.ok _, t) =>
        match client.enterStandby g.autoScalingGroupName ids true with
        | .error e => (.error e, t ++ [.enterStandby g.autoScalingGroupName ids true], [])
        | .ok _ =>
          match shutdownAsgLoop client assoc rest with
          | (res, t2, w) =>
            (res, t ++ [.enterStandby g.autoScalingGroupName ids true] ++ t2, ids ++ w)

/-- `PrepareInstanceGroupForShutdown` (curator.go): describe the group's
instances, keep the `InService` ones grouped by ASG (no ASGs is a reported
no-op), describe those ASGs, run the per-ASG min-size/enter-standby loop, and
finally wait for every moved instance to reach `Standby` via the standby
waiter (`MinDelay 15s`, `MaxDelay` overridden to one minute, total budget
`DefaultWaitDuration`). -/
def PrepareInstanceGroupForShutdown (client : Client) (group : Group) :
    Except String Unit × List APICall :=
  let instanceIds := group.instances.map Ec2Instance.instanceId
  match client.describeAutoScalingInstances instanceIds with
  | .error e => (.error e, [.describeAsgInstances instanceIds])
  | .ok asgInstances =>
    let autoscalingInstances := groupByAsg LifecycleStateNameInService asgInstances
    if autoscalingInstances.isEmpty then
      (.ok (), [.describeAsgInstances instanceIds])
    else
      let asgNames := autoscalingInstances.map Prod.fst
      match client.describeAutoScalingGroups asgNames with
      | .error e => (.error e, [.describeAsgInstances instanceIds, .describeAsgGroups asgNames])
      | .ok asgGroups =>
        let pre := [APICall.describeAsgInstances instanceIds, APICall.describeAsgGroups asgNames]
        match shutdownAsgLoop client autoscalingInstances asgGroups with
        | (.error e, t, _) => (.error e, pre ++ t)
        | (.ok _, t, waitIds) =>
          if waitIds.isEmpty then (.ok (), pre ++ t)
          else
            let w := standbyWaiterWaitForOutput curatorWaiterOptions DefaultWaitDuration
              client.standbyProbes
            match w.outcome with
            | .success _ => (.ok (), pre ++ t ++ [.standbyWait waitIds])
            | .failure e => (.error e, pre ++ t ++ [.standbyWait waitIds])
            | .outOfTrace => (.error "model: probe trace exhausted",
                pre ++ t ++ [.standbyWait waitIds])

/-! ## Capacity Controller: PrepareInstanceGroupForStartup -/

/-- The conditional max-size raise of the startup path: raise `MaxSize` to the
ASG's full member count (`int32(len(g.Instances))`) only when the current
`MaxSize` is strictly below it. -/
def condMaxUpdate (client : Client) (g : AsgGroupRecord) :
    Except String Unit × List APICall :=
  if g.maxSize < wrap32 g.instances.length then
    (client.updateAutoScalingGroup g.autoScalingGroupName none
        (some (wrap32 g.instances.length)),
      [.updateAsg g.autoScalingGroupName none (some (wrap32 g.instances.length))])
  else (.ok (), [])

/-- One iteration of the first per-ASG loop of `PrepareInstanceGroupForStartup`
(the body for one described ASG): skip ASGs not owning eligible instances;
otherwise raise `MaxSize` when needed, issue `ExitStandby`, and on success
continue with the remaining iterations' result `recRes`.  Any call error
aborts, discarding the remaining iterations. -/
def startupAsgExitStep (client : Client) (assoc : List (String × List String))
    (g : AsgGroupRecord) (recRes : Except String Unit × List APICall × List String) :
    Except String Unit × List APICall × List String :=
  match lookupAssoc assoc g.autoScalingGroupName with
  | none => recRes
  | some ids =>
    match condMaxUpdate client g with
    | (.error e, t) => (.error e, t, [])
    | (.ok _, t) =>
      match client.exitStandby g.autoScalingGroupName ids with
      | .error e => (.error e, t ++ [.exitStandby g.autoScalingGroupName ids], [])
      | .ok _ =>
        match recRes with
        | (res, t2, w) =>
          (res, t ++ [.exitStandby g.autoScalingGroupName ids] ++ t2, ids ++ w)

/-- The first per-ASG loop of `PrepareInstanceGroupForStartup`: for each
described ASG owning eligible instances, raise `MaxSize` to the full member
count when the current `MaxSize` is strictly below it, then issue
`ExitStandby`; accumulate the ids to wait for.  Any call error aborts. -/
def startupAsgExitLoop (client : Client) (assoc : List (String × List String)) :
    List AsgGroupRecord → Except String Unit × List APICall × List String
  | [] => (.ok (), [], [])
  | g :: rest => startupAsgExitStep client assoc g (startupAsgExitLoop client assoc rest)

/-- One iteration of the second per-ASG loop of
`PrepareInstanceGroupForStartup` (the body for one described ASG): skip ASGs
not owning eligible instances or whose `MinSize` is already at least the
eligible count; otherwise raise `MinSize` to the eligible count (in `int32`
arithmetic) and on success continue with the remaining iterations' result. -/
def startupAsgMinStep (client : Client) (assoc : List (String × List String))
    (g : AsgGroupRecord) (recRes : Except String Unit × List APICall) :
    Except String Unit × List APICall :=
  match lookupAssoc assoc g.autoScalingGroupName with
  | none => recRes
  | some ids =>
    if g.minSize ≥ wrap32 ids.length then recRes
    else
      match client.updateAutoScalingGroup g.autoScalingGroupName
          (some (wrap32 ids.length)) none with
      | .error e => (.error e, [.updateAsg g.autoScalingGroupName (some (wrap32 ids.length)) none])
      | .ok _ =>
        match recRes with
        | (res, t) =>
          (res, .updateAsg g.autoScalingGroupName (some (wrap32 ids.length)) none :: t)

/-- The second per-ASG loop of `PrepareInstanceGroupForStartup`, run only
after the in-service wait: raise `MinSize` to the number of instances
returned to service, skipping ASGs whose current `MinSize` is already at
least that count. -/
def startupAsgMinLoop (client : Client) (assoc : List (String × List String)) :
    List AsgGroupRecord → Except String Unit × List APICall
  | [] => (.ok (), [])
  | g :: rest => startupAsgMinStep client assoc g (startupAsgMinLoop client assoc rest)

/-- `PrepareInstanceGroupForStartup` (curator.go): describe the group's
instances, keep the `Standby` ones grouped by ASG (no ASGs is a reported
no-op), describe those ASGs, run the max-size/exit-standby loop, return early
when nothing was moved, wait for the moved instances to reach `InService`
(same waiter policy as shutdown), and only then run the min-size raise loop. -/
def PrepareInstanceGroupForStartup (client : Client) (group : Group) :
    Except String Unit × List APICall :=
  let instanceIds := group.instances.map Ec2Instance.instanceId
  match client.describeAutoScalingInstances instanceIds with
  | .error e => (.error e, [.describeAsgInstances instanceIds])
  | .ok asgInstances =>
    let autoscalingInstances := groupByAsg LifecycleStateNameStandby asgInstances
    if autoscalingInstances.isEmpty then
      (.ok (), [.describeAsgInstances instanceIds])
    else
      let asgNames := autoscalingInstances.map Prod.fst
      match client.describeAutoScalingGroups asgNames with
      | .error e => (.error e, [.describeAsgInstances instanceIds, .describeAsgGroups asgNames])
      | .ok asgGroups =>
        let pre := [APICall.describeAsgInstances instanceIds, APICall.describeAsgGroups asgNames]
        match startupAsgExitLoop client autoscalingInstances asgGroups with
        | (.error e, t, _) => (.error e, pre ++ t)
        | (.ok _, t, waitIds) =>
          if waitIds.isEmpty then (.ok (), pre ++ t)
          else
            let w := inServiceWaiterWaitForOutput curatorWaiterOptions DefaultWaitDuration
              client.inServiceProbes
            match w.outcome with
            | .failure e => (.error e, pre ++ t ++ [.inServiceWait waitIds])
            | .outOfTrace => (.error "model: probe trace exhausted",
                pre ++ t ++ [.inServiceWait waitIds])
            | .success _ =>
              match startupAsgMinLoop client autoscalingInstances asgGroups with
              | (res, t2) => (res, pre ++ t ++ [.inServiceWait waitIds] ++ t2)

/-! ## Group Sequencer

The sequencing logic of the startup and shutdown commands.  Credential and
configuration loading precede the loops and are out of scope; the loops are
embedded from the point where both clients exist. -/

/-- Processing of one group by the startup command: resolve instances through
the combined stack+group+state filters, skip (reported) when none resolve,
report the group table, stop if dry-run, start the instances, wait for
running-and-healthy status, then invoke the capacity-controller startup
operation — whose error result the source discards. -/
def processGroupStartup (client : Client) (stackFilters : List String) (dryRun : Bool)
    (group : Group) : Except String Unit × List APICall :=
  let filters := stackFilters ++ group.filters ++ [instanceStateFilter]
  match client.describeInstances filters with
  | .error e => (.error e, [.describeEc2Instances filters])
  | .ok instances =>
    if instances.isEmpty then
      (.ok (), [.describeEc2Instances filters, .skipReport group.name])
    else
      let instanceIds := instances.map Ec2Instance.instanceId
      let base := [APICall.describeEc2Instances filters, APICall.groupReport group.name]
      if dryRun then (.ok (), base)
      else
        match client.startInstances instanceIds with
        | .error e => (.error e, base ++ [.startInstances instanceIds])
        | .ok _ =>
          match client.statusOkWait instanceIds with
          | .error e => (.error e, base ++ [.startInstances instanceIds, .ec2StatusWait instanceIds])
          | .ok _ =>
            let prep := PrepareInstanceGroupForStartup client { group with instances := instances }
            (.ok (), base ++ [.startInstances instanceIds, .ec2StatusWait instanceIds] ++ prep.2)

/-- Processing of one group by the shutdown command: resolve instances, skip
(reported) when none resolve, report the group table, stop if dry-run, invoke
the capacity-controller shutdown operation (error checked), stop the
instances, and wait for the stopped status. -/
def processGroupShutdown (client : Client) (stackFilters : List String) (dryRun : Bool)
    (group : Group) : Except String Unit × List APICall :=
  let filters := stackFilters ++ group.filters ++ [instanceStateFilter]
  match client.describeInstances filters with
  | .error e => (.error e, [.describeEc2Instances filters])
  | .ok instances =>
    if instances.isEmpty then
      (.ok (), [.describeEc2Instances filters, .skipReport group.name])
    else
      let instanceIds := instances.map Ec2Instance.instanceId
      let base := [APICall.describeEc2Instances filters, APICall.groupReport group.name]
      if dryRun then (.ok (), base)
      else
        match PrepareInstanceGroupForShutdown client { group with instances := instances } with
        | (.error e, pt) => (.error e, base ++ pt)
        | (.ok _, pt) =>
          match client.stopInstances instanceIds with
          | .error e => (.error e, base ++ pt ++ [.stopInstances instanceIds])
          | .ok _ =>
            match client.stoppedWait instanceIds with
            | .error e =>
              (.error e, base ++ pt ++ [.stopInstances instanceIds, .ec2StoppedWait instanceIds])
            | .ok _ =>
              (.ok (), base ++ pt ++ [.stopInstances instanceIds, .ec2StoppedWait instanceIds])

/-- Fail-fast iteration over the groups: each group's step runs in turn; an
error stops the remaining groups; traces concatenate. -/
def runGroups (step : Group → Except String Unit × List APICall) :
    List Group → Except String Unit × List APICall
  | [] => (.ok (), [])
  | g :: gs =>
    match step g with
    | (.error e, t) => (.error e, t)
    | (.ok _, t) =>
      match runGroups step gs with
      | (res, t2) => (res, t ++ t2)

/-- The startup command's visit order: `for i in range(n): groups[n-1-i]`. -/
def visitOrderStartup (groups : List Group) : List Group :=
  (List.range groups.length).filterMap fun i => groups[groups.length - 1 - i]?

/-- The shutdown command's visit order: `for i in range(n): groups[i]`. -/
def visitOrderShutdown (groups : List Group) : List Group :=
  (List.range groups.length).filterMap fun i => groups[i]?

/-- The startup command's group loop (`startupCmd`). -/
def startupRun (client : Client) (stack : Stack) (dryRun : Bool) :
    Except String Unit × List APICall :=
  runGroups (processGroupStartup client stack.filters dryRun) (visitOrderStartup stack.groups)

/-- The shutdown command's group loop (`shutdownCmd`). -/
def shutdownRun (client : Client) (stack : Stack) (dryRun : Bool) :
    Except String Unit × List APICall :=
  runGroups (processGroupShutdown client stack.filters dryRun) (visitOrderShutdown stack.groups)

/-! ## Concrete environments

Small closed environments used to evaluate the engine on explicit inputs. -/

/-- Environment in which every remote call succeeds and every discovery
returns the empty set. -/
def okClient : Client where
  describeInstances := fun _ => .ok []
  startInstances := fun _ => .ok ()
  stopInstances := fun _ => .ok ()
  statusOkWait := fun _ => .ok ()
  stoppedWait := fun _ => .ok ()
  describeAutoScalingInstances := fun _ => .ok []
  describeAutoScalingGroups := fun _ => .ok []
  updateAutoScalingGroup := fun _ _ _ => .ok ()
  enterStandby := fun _ _ _ => .ok ()
  exitStandby := fun _ _ => .ok ()
  standbyProbes := []
  inServiceProbes := []

/-- Environment for a bring-up of one instance `i1` standing by in ASG `asg1`
(member count 2, current max size 0, min size 0): discovery resolves `i1`,
the in-service probe immediately reports `InService`. -/
def bringUpClient : Client :=
  { okClient with
    describeInstances := fun _ => .ok [⟨"i1"⟩]
    describeAutoScalingInstances := fun _ => .ok [⟨"i1", "asg1", "Standby"⟩]
    describeAutoScalingGroups := fun _ => .ok [⟨"asg1", 0, 0, ["i1", "i2"]⟩]
    inServiceProbes := [⟨.ok [⟨"i1", "asg1", "InService"⟩], 0, 0⟩] }

/-- Environment in which discovery resolves `i1` but every describe of the
Auto Scaling instances fails. -/
def failingPrepClient : Client :=
  { okClient with
    describeInstances := fun _ => .ok [⟨"i1"⟩]
    describeAutoScalingInstances := fun _ => .error "asg describe failure" }

/-- Environment for a tear-down of two in-service instances of ASG `asg1`
(min size 3, max size 5, member count 3): the standby probe immediately
reports both in `Standby`. -/
def tearDownClient : Client :=
  { okClient with
    describeInstances := fun _ => .ok [⟨"i1"⟩, ⟨"i2"⟩]
    describeAutoScalingInstances := fun _ =>
      .ok [⟨"i1", "asg1", "InService"⟩, ⟨"i2", "asg1", "InService"⟩]
    describeAutoScalingGroups := fun _ => .ok [⟨"asg1", 3, 5, ["i1", "i2", "i3"]⟩]
    standbyProbes := [⟨.ok [⟨"i1", "asg1", "Standby"⟩, ⟨"i2", "asg1", "Standby"⟩], 0, 0⟩] }

/-- A one-group stack with no filters. -/
def stackOne : Stack := ⟨"s1", [], [⟨"g1", [], []⟩]⟩

/-- A two-group stack (declared order `gA`, `gB`) with no filters. -/
def stackTwo : Stack := ⟨"s2", [], [⟨"gA", [], []⟩, ⟨"gB", [], []⟩]⟩

/-! ## Helper lemmas -/

theorem wrap32_eq_mod (x : Int) : wrap32 x = (x + 2 ^ 31) % 2 ^ 32 - 2 ^ 31 := by
  cases x with
  | ofNat n =>
    simp only [wrap32]
    have h1 : n % 4294967296 < 4294967296 := Nat.mod_lt _ (by decide)
    split
    · simp only [Int.ofNat_eq_natCast, Int.negSucc_eq]
      push_cast
      omega
    · simp only [Int.ofNat_eq_natCast, Int.negSucc_eq]
      push_cast
      omega
  | negSucc m =>
    simp only [wrap32]
    have h1 : (m + 1) % 4294967296 < 4294967296 := Nat.mod_lt _ (by decide)
    split
    · simp only [Int.ofNat_eq_natCast, Int.negSucc_eq]
      push_cast
      omega
    · split
      · simp only [Int.ofNat_eq_natCast, Int.negSucc_eq]
        push_cast
        omega
      · simp only [Int.ofNat_eq_natCast, Int.negSucc_eq]
        push_cast
        omega

theorem wrap32_eq_self {x : Int} (h1 : -(2 ^ 31) ≤ x) (h2 : x < 2 ^ 31) : wrap32 x = x := by
  rw [wrap32_eq_mod]
  have hlt : x + 2 ^ 31 < 2 ^ 32 := by omega
  have hge : (0 : Int) ≤ x + 2 ^ 31 := by omega
  rw [Int.emod_eq_of_lt hge hlt]
  omega

theorem visitOrderStartup_eq_reverse (l : List Group) : visitOrderStartup l = l.reverse := by
  induction l with
  | nil => rfl
  | cons x xs ih =>
    unfold visitOrderStartup
    rw [List.length_cons, List.range_succ, List.filterMap_append]
    have h1 : ∀ i ∈ List.range xs.length,
        (x :: xs)[xs.length + 1 - 1 - i]? = xs[xs.length - 1 - i]? := by
      intro i hi
      rw [List.mem_range] at hi
      have hidx : xs.length + 1 - 1 - i = (xs.length - 1 - i) + 1 := by omega
      rw [hidx, List.getElem?_cons_succ]
    rw [List.filterMap_congr h1]
    have h2 : ([xs.length].filterMap fun i => (x :: xs)[xs.length + 1 - 1 - i]?) = [x] := by
      have hidx : xs.length + 1 - 1 - xs.length = 0 := by omega
      simp [List.filterMap_cons, hidx]
    rw [h2]
    unfold visitOrderStartup at ih
    rw [ih, List.reverse_cons]

theorem visitOrderShutdown_eq_self (l : List Group) : visitOrderShutdown l = l := by
  induction l with
  | nil => rfl
  | cons x xs ih =>
    unfold visitOrderShutdown
    rw [List.length_cons, List.range_succ_eq_map, List.filterMap_cons]
    simp only [List.getElem?_cons_zero, List.filterMap_map, Function.comp_def]
    have h1 : ∀ i ∈ List.range xs.length, (x :: xs)[i.succ]? = xs[i]? := by
      intro i hi
      rw [List.getElem?_cons_succ]
    rw [List.filterMap_congr h1]
    unfold visitOrderShutdown at ih
    rw [ih]

theorem checkElems_eq_strList (target : String) (elems : List JMESElem) :
    checkElems target elems =
      match strList elems with
      | none => .error "waiter comparator expected string value"
      | some ss => .ok (ss.all fun s => s == target) := by
  induction elems with
  | nil => rfl
  | cons e es ih =>
    cases e with
    | strPtr s =>
      unfold checkElems strList
      rw [ih]
      cases h : strList es with
      | none => rfl
      | some ss => simp [List.all_cons]
    | other t => rfl

theorem strList_nil_iff {elems : List JMESElem} {ss : List String}
    (h : strList elems = some ss) : elems = [] ↔ ss = [] := by
  cases elems with
  | nil =>
    unfold strList at h
    cases h
    simp
  | cons e es =>
    cases e with
    | strPtr s =>
      unfold strList at h
      cases h2 : strList es with
      | none => rw [h2] at h; cases h
      | some ss2 => rw [h2] at h; cases h; simp
    | other t => cases h

theorem stateRetryableCore_list_eq (target : String) (elems : List JMESElem) :
    stateRetryableCore target (.list elems) =
      match checkElems target elems with
      | .error e => (false, some e)
      | .ok allEq => if !elems.isEmpty && allEq then (false, none) else (true, none) := rfl

theorem stateRetryableCore_of_strList (target : String) {elems : List JMESElem}
    {ss : List String} (h : strList elems = some ss) :
    stateRetryableCore target (.list elems) =
      if ss = [] ∨ ∃ s ∈ ss, s ≠ target then (true, none) else (false, none) := by
  have hiff := strList_nil_iff h
  have hempty : elems.isEmpty = false ↔ elems ≠ [] := by
    cases elems with
    | nil => simp
    | cons a as => simp
  have hbool : (!elems.isEmpty && ss.all fun s => s == target) = true ↔
      (ss ≠ [] ∧ ∀ s ∈ ss, s = target) := by
    simp only [Bool.and_eq_true, Bool.not_eq_true', List.all_eq_true, beq_iff_eq]
    rw [hempty]
    constructor
    · rintro ⟨h1, h2⟩
      exact ⟨fun hss => h1 (hiff.mpr hss), h2⟩
    · rintro ⟨h1, h2⟩
      exact ⟨fun he => h1 (hiff.mp he), h2⟩
  rw [stateRetryableCore_list_eq, checkElems_eq_strList, h]
  dsimp only
  by_cases hc : ss = [] ∨ ∃ s ∈ ss, s ≠ target
  · rw [if_pos hc, if_neg]
    rw [hbool]
    rcases hc with hc | ⟨s, hs, hne⟩
    · rintro ⟨h1, _⟩
      exact h1 hc
    · rintro ⟨_, h2⟩
      exact hne (h2 s hs)
  · rw [if_neg hc, if_pos]
    rw [hbool]
    push_neg at hc
    exact ⟨hc.1, fun s hs => by
      by_contra hne
      exact hne (hc.2 s hs)⟩

theorem stateRetryableCore_malformed (target : String) {v : JMESValue}
    (h : statesOf v = none) :
    ∃ msg, stateRetryableCore target v = (false, some msg) := by
  cases v with
  | other t =>
    exact ⟨"waiter comparator expected list", rfl⟩
  | list elems =>
    have hl : strList elems = none := h
    rw [stateRetryableCore_list_eq, checkElems_eq_strList, hl]
    dsimp only
    exact ⟨"waiter comparator expected string value", rfl⟩

theorem stateRetryableCore_of_statesOf (target : String) {v : JMESValue} {ss : List String}
    (h : statesOf v = some ss) :
    stateRetryableCore target v =
      if ss = [] ∨ ∃ s ∈ ss, s ≠ target then (true, none) else (false, none) := by
  cases v with
  | other t => simp [statesOf] at h
  | list elems => exact stateRetryableCore_of_strList target h

/-! ## Claim theorems -/

/-- Claim C4: for a target lifecycle state `T` (instantiated at `Standby` and
`InService` by the two retryable functions, per the final conjuncts), the
retryable body applied to the extracted path value of a successful probe is
terminal success `(false, none)` exactly when the extracted state list is
non-empty and every element equals `T`; it is continue-retrying `(true, none)`
exactly when the list is empty or some element differs from `T`; and a
malformed path value (non-list, or containing a non-string element) yields
exactly the predicate-error results. -/
theorem lifecycle_retryable_characterization (target : String) (v : JMESValue) :
    (stateRetryableCore target v = (false, none) ↔
        ∃ ss, statesOf v = some ss ∧ ss ≠ [] ∧ ∀ s ∈ ss, s = target)
      ∧ (stateRetryableCore target v = (true, none) ↔
        ∃ ss, statesOf v = some ss ∧ (ss = [] ∨ ∃ s ∈ ss, s ≠ target))
      ∧ (statesOf v = none ↔ ∃ msg, stateRetryableCore target v = (false, some msg))
      ∧ (∀ out, autoScalingInstanceStandbyStateRetryable (.ok out) =
          stateRetryableCore LifecycleStateNameStandby (jmesLifecycleStates out))
      ∧ (∀ out, AutoScalingInstanceInServiceStateRetryable (.ok out) =
          stateRetryableCore LifecycleStateNameInService (jmesLifecycleStates out)) := by
  refine ⟨?_, ?_, ?_, fun _ => rfl, fun _ => rfl⟩
  · cases hv : statesOf v with
    | none =>
      obtain ⟨msg, hm⟩ := stateRetryableCore_malformed target hv
      rw [hm]
      simp [hv]
    | some ss =>
      rw [stateRetryableCore_of_statesOf target hv]
      by_cases hc : ss = [] ∨ ∃ s ∈ ss, s ≠ target
      · rw [if_pos hc]
        constructor
        · intro hEq
          exact absurd hEq (by simp)
        · rintro ⟨ss2, hss2, hne, hall⟩
          obtain rfl : ss2 = ss := (Option.some.inj hss2).symm
          rcases hc with hc | ⟨s, hs, hsne⟩
          · exact absurd hc hne
          · exact absurd (hall s hs) hsne
      · rw [if_neg hc]
        push_neg at hc
        exact ⟨fun _ => ⟨ss, rfl, hc.1, hc.2⟩, fun _ => rfl⟩
  · cases hv : statesOf v with
    | none =>
      obtain ⟨msg, hm⟩ := stateRetryableCore_malformed target hv
      rw [hm]
      simp [hv]
    | some ss =>
      rw [stateRetryableCore_of_statesOf target hv]
      by_cases hc : ss = [] ∨ ∃ s ∈ ss, s ≠ target
      · rw [if_pos hc]
        exact ⟨fun _ => ⟨ss, rfl, hc⟩, fun _ => rfl⟩
      · rw [if_neg hc]
        constructor
        · intro hEq
          exact absurd hEq (by simp)
        · rintro ⟨ss2, hss2, hc2⟩
          obtain rfl : ss2 = ss := (Option.some.inj hss2).symm
          exact absurd hc2 hc
  · cases hv : statesOf v with
    | none =>
      exact ⟨fun _ => stateRetryableCore_malformed target hv, fun _ => rfl⟩
    | some ss =>
      rw [stateRetryableCore_of_statesOf target hv]
      constructor
      · intro hEq
        cases hEq
      · rintro ⟨msg, hm⟩
        by_cases hc : ss = [] ∨ ∃ s ∈ ss, s ≠ target
        · rw [if_pos hc] at hm
          exact absurd hm (by simp)
        · rw [if_neg hc] at hm
          exact absurd hm (by simp)

/-- Claim C7: for a stack whose groups are declared in order, the tear-down
run processes the groups in declared order while the bring-up run processes
them in reverse declared order: the startup command's visit order is the
reverse of the declared group list, the shutdown command's is the declared
list itself, and the two runs are the fail-fast folds over exactly those
orders. -/
theorem startup_reverse_shutdown_declared_order (client : Client) (stack : Stack) (dryRun : Bool) :
    visitOrderStartup stack.groups = stack.groups.reverse
      ∧ visitOrderShutdown stack.groups = stack.groups
      ∧ startupRun client stack dryRun =
          runGroups (processGroupStartup client stack.filters dryRun) stack.groups.reverse
      ∧ shutdownRun client stack dryRun =
          runGroups (processGroupShutdown client stack.filters dryRun) stack.groups := by
  refine ⟨visitOrderStartup_eq_reverse _, visitOrderShutdown_eq_self _, ?_, ?_⟩
  · unfold startupRun
    rw [visitOrderStartup_eq_reverse]
  · unfold shutdownRun
    rw [visitOrderShutdown_eq_self]

/-- Claim C8: `WaitForOutput` returns a configuration error immediately and
without invoking the probe operation whenever the maximum wait duration is
≤ 0 or the resolved minimum delay exceeds the resolved maximum delay: zero
probes are issued and the outcome is one of the two configuration errors,
for every retryable predicate and probe trace. -/
theorem waitForOutput_config_error_no_probe (name : String)
    (retryable : Except String (List AsgInstanceDetails) → Bool × Option String)
    (opts : WaiterOptions) (maxWaitDur : Int) (events : List ProbeEvent)
    (h : maxWaitDur ≤ 0 ∨ resolvedMaxDelay opts < opts.minDelay) :
    (waitForOutput name retryable opts maxWaitDur events).probesUsed = 0
      ∧ ((waitForOutput name retryable opts maxWaitDur events).outcome =
            .failure waiterMaxWaitMsg
        ∨ (waitForOutput name retryable opts maxWaitDur events).outcome =
            .failure waiterDelayMsg) := by
  unfold waitForOutput
  rcases h with h | h
  · rw [if_pos h]
    exact ⟨rfl, Or.inl rfl⟩
  · by_cases hm : maxWaitDur ≤ 0
    · rw [if_pos hm]
      exact ⟨rfl, Or.inl rfl⟩
    · rw [if_neg hm, if_pos (by omega : opts.minDelay > resolvedMaxDelay opts)]
      exact ⟨rfl, Or.inr rfl⟩

/-- Witness for C8 at a concrete input: maximum wait duration 0 with the
standby retryable, default options and a non-empty probe trace. -/
theorem waitForOutput_config_error_no_probe_applied :
    (waitForOutput "AutoScalingInstanceStandby" autoScalingInstanceStandbyStateRetryable
        defaultWaiterOptions 0 [⟨.error "boom", 0, 0⟩]).probesUsed = 0
      ∧ ((waitForOutput "AutoScalingInstanceStandby" autoScalingInstanceStandbyStateRetryable
            defaultWaiterOptions 0 [⟨.error "boom", 0, 0⟩]).outcome =
              .failure waiterMaxWaitMsg
        ∨ (waitForOutput "AutoScalingInstanceStandby" autoScalingInstanceStandbyStateRetryable
            defaultWaiterOptions 0 [⟨.error "boom", 0, 0⟩]).outcome =
              .failure waiterDelayMsg) :=
  waitForOutput_config_error_no_probe "AutoScalingInstanceStandby"
    autoScalingInstanceStandbyStateRetryable defaultWaiterOptions 0 [⟨.error "boom", 0, 0⟩]
    (Or.inl (by decide))

/-- Claim C10: when the resolved options have `MaxDelay` ≤ 0, `WaitForOutput`
substitutes the default `MaxDelay` of 120 seconds before validating
`MinDelay ≤ MaxDelay`: such a call is rejected as a configuration error only
when `MinDelay` exceeds 120 seconds, and otherwise behaves exactly as the
same call with `MaxDelay` set to 120 seconds. -/
theorem waitForOutput_maxDelay_defaulting (name : String)
    (retryable : Except String (List AsgInstanceDetails) → Bool × Option String)
    (opts : WaiterOptions) (maxWaitDur : Int) (events : List ProbeEvent)
    (hmd : opts.maxDelay ≤ 0) (hwd : 0 < maxWaitDur) :
    (120 * second < opts.minDelay →
        waitForOutput name retryable opts maxWaitDur events = ⟨.failure waiterDelayMsg, 0⟩)
      ∧ (opts.minDelay ≤ 120 * second →
        waitForOutput name retryable opts maxWaitDur events =
          waitForOutput name retryable ⟨opts.minDelay, 120 * second⟩ maxWaitDur events) := by
  have hres : resolvedMaxDelay opts = 120 * second := by
    unfold resolvedMaxDelay
    rw [if_pos hmd]
  have hres2 : resolvedMaxDelay ⟨opts.minDelay, 120 * second⟩ = 120 * second := by
    unfold resolvedMaxDelay
    rw [if_neg (by decide : ¬ (120 * second ≤ 0))]
  constructor
  · intro hgt
    unfold waitForOutput
    rw [if_neg (by omega), hres, if_pos (by omega)]
  · intro hle
    have hlhs : waitForOutput name retryable opts maxWaitDur events =
        waitLoop name retryable opts.minDelay maxWaitDur events := by
      unfold waitForOutput
      rw [hres, if_neg (by omega : ¬ maxWaitDur ≤ 0)]
      exact if_neg (by exact not_lt.mpr hle)
    have hrhs : waitForOutput name retryable ⟨opts.minDelay, 120 * second⟩ maxWaitDur events =
        waitLoop name retryable opts.minDelay maxWaitDur events := by
      unfold waitForOutput
      rw [hres2, if_neg (by omega : ¬ maxWaitDur ≤ 0)]
      exact if_neg (by exact not_lt.mpr hle)
    rw [hlhs, hrhs]

/-- Witness for C10 at a concrete input: `MaxDelay = 0`, `MinDelay = 15s`,
wait budget one second, empty probe trace. -/
theorem waitForOutput_maxDelay_defaulting_applied :
    (120 * second < (15 * second : Int) →
        waitForOutput "AutoScalingInstanceStandby" autoScalingInstanceStandbyStateRetryable
          ⟨15 * second, 0⟩ second [] = ⟨.failure waiterDelayMsg, 0⟩)
      ∧ ((15 * second : Int) ≤ 120 * second →
        waitForOutput "AutoScalingInstanceStandby" autoScalingInstanceStandbyStateRetryable
          ⟨15 * second, 0⟩ second [] =
        waitForOutput "AutoScalingInstanceStandby" autoScalingInstanceStandbyStateRetryable
          ⟨15 * second, 120 * second⟩ second []) :=
  waitForOutput_maxDelay_defaulting "AutoScalingInstanceStandby"
    autoScalingInstanceStandbyStateRetryable ⟨15 * second, 0⟩ second []
    (by decide) (by decide)

/-- Claim C1 (code-bug evidence): on the bring-up path the sequencer discards
the error result of the capacity-controller startup operation.  In an
environment where that operation fails for every group (`failingPrepClient`),
the operation itself returns the describe error, yet the two-group startup
run completes with `ok` and still processes the second group (`gA`) after the
failing step of the first-visited group (`gB`). -/
theorem startup_discards_capacity_controller_error :
    PrepareInstanceGroupForStartup failingPrepClient ⟨"gB", [], [⟨"i1"⟩]⟩ =
      (.error "asg describe failure", [.describeAsgInstances ["i1"]])
    ∧ startupRun failingPrepClient stackTwo false =
      (.ok (), [.describeEc2Instances [instanceStateFilter], .groupReport "gB",
        .startInstances ["i1"], .ec2StatusWait ["i1"], .describeAsgInstances ["i1"],
        .describeEc2Instances [instanceStateFilter], .groupReport "gA",
        .startInstances ["i1"], .ec2StatusWait ["i1"], .describeAsgInstances ["i1"]]) :=
  ⟨rfl, rfl⟩

/-- Counterexample to claim C2 as stated: in a concrete successful bring-up of
one group, the compute-level start call is issued at trace index 2 while the
first capacity-controller mutation (`ExitStandby` preceded by the max-size
raise at index 6) only appears at index 7, after the start call and the
running-and-healthy wait — the capacity-controller startup operation is not
invoked first. -/
theorem startup_capacity_first_counterexample :
    startupRun bringUpClient stackOne false =
      (.ok (), [.describeEc2Instances [instanceStateFilter], .groupReport "g1",
        .startInstances ["i1"], .ec2StatusWait ["i1"], .describeAsgInstances ["i1"],
        .describeAsgGroups ["asg1"], .updateAsg "asg1" none (some 2),
        .exitStandby "asg1" ["i1"], .inServiceWait ["i1"], .updateAsg "asg1" (some 1) none])
    ∧ (startupRun bringUpClient stackOne false).2[2]? = some (.startInstances ["i1"])
    ∧ (startupRun bringUpClient stackOne false).2[7]? = some (.exitStandby "asg1" ["i1"]) :=
  ⟨rfl, rfl, rfl⟩

/-- Claim C2 (amended): for every group that resolves a non-empty instance set
on the bring-up path (outside dry-run), the sequencer first issues the
compute-level start call, then waits for the instances to reach
running-and-healthy status, and only then invokes the Capacity Controller
startup operation (max-size adjustment, exit-standby, in-service wait,
min-size raise), whose error result it discards. -/
theorem startup_group_operation_order (client : Client) (sf : List String) (group : Group)
    (instances : List Ec2Instance)
    (hd : client.describeInstances (sf ++ group.filters ++ [instanceStateFilter]) = .ok instances)
    (hne : instances ≠ [])
    (hstart : client.startInstances (instances.map Ec2Instance.instanceId) = .ok ())
    (hwait : client.statusOkWait (instances.map Ec2Instance.instanceId) = .ok ()) :
    processGroupStartup client sf false group =
      (.ok (), [.describeEc2Instances (sf ++ group.filters ++ [instanceStateFilter]),
        .groupReport group.name,
        .startInstances (instances.map Ec2Instance.instanceId),
        .ec2StatusWait (instances.map Ec2Instance.instanceId)]
        ++ (PrepareInstanceGroupForStartup client { group with instances := instances }).2) := by
  have hne2 : instances.isEmpty = false := by
    cases instances with
    | nil => exact absurd rfl hne
    | cons a as => rfl
  simp only [List.append_assoc] at hd
  simp [processGroupStartup, hd, hne2, hstart, hwait]

/-- Witness for the amended C2 at a concrete input: the one-group bring-up of
`bringUpClient`. -/
theorem startup_group_operation_order_applied :
    processGroupStartup bringUpClient [] false ⟨"g1", [], []⟩ =
      (.ok (), [.describeEc2Instances ([] ++ [] ++ [instanceStateFilter]),
        .groupReport "g1", .startInstances ["i1"], .ec2StatusWait ["i1"]]
        ++ (PrepareInstanceGroupForStartup bringUpClient ⟨"g1", [], [⟨"i1"⟩]⟩).2) :=
  startup_group_operation_order bringUpClient [] ⟨"g1", [], []⟩ [⟨"i1"⟩]
    rfl (by decide) rfl rfl

/-- Counterexample to claim C3 as stated: a describe-instances failure inside
the standby lifecycle wait is not propagated.  With a first probe returning
an error and a second probe reporting `Standby`, the waiter retries past the
error and terminates successfully after two probes instead of aborting with
the probe's error. -/
theorem probe_error_retried_counterexample :
    standbyWaiterWaitForOutput curatorWaiterOptions DefaultWaitDuration
        [⟨.error "boom", 0, 15 * second⟩, ⟨.ok [⟨"i1", "asg1", "Standby"⟩], 0, 0⟩] =
      ⟨.success (some [⟨"i1", "asg1", "Standby"⟩]), 2⟩
    ∧ (standbyWaiterWaitForOutput curatorWaiterOptions DefaultWaitDuration
        [⟨.error "boom", 0, 15 * second⟩, ⟨.ok [⟨"i1", "asg1", "Standby"⟩], 0, 0⟩]).outcome ≠
      .failure "boom" :=
  ⟨rfl, by decide⟩

theorem processGroupStartup_dry_not_mutating (client : Client) (sf : List String) (g : Group) :
    ((processGroupStartup client sf true g).2.all fun c => !c.isMutating) = true := by
  cases hd : client.describeInstances (sf ++ (g.filters ++ [instanceStateFilter])) with
  | error e => simp [processGroupStartup, hd, APICall.isMutating]
  | ok instances =>
    cases hi : instances.isEmpty with
    | true => simp [processGroupStartup, hd, hi, APICall.isMutating]
    | false => simp [processGroupStartup, hd, hi, APICall.isMutating]

theorem processGroupShutdown_dry_not_mutating (client : Client) (sf : List String) (g : Group) :
    ((processGroupShutdown client sf true g).2.all fun c => !c.isMutating) = true := by
  cases hd : client.describeInstances (sf ++ (g.filters ++ [instanceStateFilter])) with
  | error e => simp [processGroupShutdown, hd, APICall.isMutating]
  | ok instances =>
    cases hi : instances.isEmpty with
    | true => simp [processGroupShutdown, hd, hi, APICall.isMutating]
    | false => simp [processGroupShutdown, hd, hi, APICall.isMutating]

theorem runGroups_trace_all (p : APICall → Bool)
    (step : Group → Except String Unit × List APICall) :
    ∀ gl : List Group, (∀ g ∈ gl, ((step g).2.all p) = true) →
      ((runGroups step gl).2.all p) = true := by
  intro gl
  induction gl with
  | nil => intro _; rfl
  | cons g gs ih =>
    intro h
    have h1 := h g (List.mem_cons_self g gs)
    have h2 := ih fun g2 hg2 => h g2 (List.mem_cons_of_mem _ hg2)
    unfold runGroups
    cases hsg : step g with
    | mk res t =>
      rw [hsg] at h1
      cases res with
      | error e => simpa using h1
      | ok u =>
        cases hr : runGroups step gs with
        | mk res2 t2 =>
          rw [hr] at h2
          simp only [List.all_append, Bool.and_eq_true]
          exact ⟨by simpa using h1, by simpa using h2⟩

/-- Claim C9: with the dry-run flag set, both runs are read-only — every call
in their traces is non-mutating — and a group resolving zero instances is
skipped with exactly the same step result and reported trace as in a normal
run. -/
theorem dry_run_is_read_only (client : Client) (stack : Stack) :
    ((startupRun client stack true).2.all fun c => !c.isMutating) = true
    ∧ ((shutdownRun client stack true).2.all fun c => !c.isMutating) = true
    ∧ (∀ sf g, client.describeInstances (sf ++ g.filters ++ [instanceStateFilter]) = .ok [] →
        processGroupStartup client sf true g = processGroupStartup client sf false g
        ∧ processGroupShutdown client sf true g = processGroupShutdown client sf false g
        ∧ processGroupStartup client sf true g =
            (.ok (), [.describeEc2Instances (sf ++ g.filters ++ [instanceStateFilter]),
              .skipReport g.name])) := by
  refine ⟨?_, ?_, ?_⟩
  · exact runGroups_trace_all _ _ _
      (fun g _ => processGroupStartup_dry_not_mutating client stack.filters g)
  · exact runGroups_trace_all _ _ _
      (fun g _ => processGroupShutdown_dry_not_mutating client stack.filters g)
  · intro sf g h
    simp only [List.append_assoc] at h
    refine ⟨?_, ?_, ?_⟩
    · simp [processGroupStartup, h]
    · simp [processGroupShutdown, h]
    · simp [processGroupStartup, h]

/-- Witness for C9 at a concrete input: the empty-discovery environment. -/
theorem dry_run_is_read_only_applied :
    processGroupStartup okClient [] true ⟨"g1", [], []⟩ =
      processGroupStartup okClient [] false ⟨"g1", [], []⟩
    ∧ processGroupShutdown okClient [] true ⟨"g1", [], []⟩ =
      processGroupShutdown okClient [] false ⟨"g1", [], []⟩
    ∧ processGroupStartup okClient [] true ⟨"g1", [], []⟩ =
      (.ok (), [.describeEc2Instances ([] ++ [] ++ [instanceStateFilter]), .skipReport "g1"]) :=
  (dry_run_is_read_only okClient stackOne).2.2 [] ⟨"g1", [], []⟩ rfl

theorem shutdownMinTarget_eq_max (m : Int) (n : Nat) (h0 : 0 ≤ m) (h1 : m < 2 ^ 31)
    (h2 : (n : Int) < 2 ^ 31) : shutdownMinTarget m n = max 0 (m - n) := by
  have hn : wrap32 (n : Int) = n := wrap32_eq_self (by omega) h2
  unfold shutdownMinTarget
  rw [hn, wrap32_eq_self (by omega) (by omega)]
  by_cases hc : m - (n : Int) < 0
  · rw [if_pos hc, max_eq_left (by omega : m - (n : Int) ≤ 0)]
  · rw [if_neg hc, max_eq_right (by omega : (0 : Int) ≤ m - n)]

theorem condMinUpdate_trace (client : Client) (g : AsgGroupRecord) (ids : List String) :
    (condMinUpdate client g ids).2 =
      if 0 < g.minSize then
        [.updateAsg g.autoScalingGroupName (some (shutdownMinTarget g.minSize ids.length)) none]
      else [] := by
  unfold condMinUpdate
  by_cases hc : 0 < g.minSize
  · rw [if_pos hc, if_pos hc]
  · rw [if_neg hc, if_neg hc]

theorem condMinUpdate_mem (client : Client) (g : AsgGroupRecord) (ids : List String)
    (c : APICall) (hc : c ∈ (condMinUpdate client g ids).2) :
    0 < g.minSize ∧
      c = .updateAsg g.autoScalingGroupName (some (shutdownMinTarget g.minSize ids.length))
        none := by
  rw [condMinUpdate_trace] at hc
  by_cases h0 : 0 < g.minSize
  · rw [if_pos h0] at hc
    exact ⟨h0, by simpa using hc⟩
  · rw [if_neg h0] at hc
    simp at hc

theorem shutdownAsgLoop_updateAsg_mem (client : Client)
    (assoc : List (String × List String)) :
    ∀ gs : List AsgGroupRecord, ∀ n mo Mo,
      APICall.updateAsg n mo Mo ∈ (shutdownAsgLoop client assoc gs).2.1 →
      ∃ g ∈ gs, ∃ ids, g.autoScalingGroupName = n ∧
        lookupAssoc assoc g.autoScalingGroupName = some ids ∧ 0 < g.minSize ∧
        mo = some (shutdownMinTarget g.minSize ids.length) ∧ Mo = none := by
  intro gs
  induction gs with
  | nil =>
    intro n mo Mo h
    simp [shutdownAsgLoop] at h
  | cons g0 rest ih =>
    intro n mo Mo h
    cases hl : lookupAssoc assoc g0.autoScalingGroupName with
    | none =>
      simp only [shutdownAsgLoop, hl] at h
      obtain ⟨g2, hg2, ids2, hrest⟩ := ih n mo Mo h
      exact ⟨g2, List.mem_cons_of_mem _ hg2, ids2, hrest⟩
    | some ids0 =>
      simp only [shutdownAsgLoop, hl] at h
      rcases hcnd : condMinUpdate client g0 ids0 with ⟨cres, ct⟩
      rw [hcnd] at h
      have hctmem : ∀ c ∈ ct, 0 < g0.minSize ∧
          c = .updateAsg g0.autoScalingGroupName
            (some (shutdownMinTarget g0.minSize ids0.length)) none := by
        intro c hcm
        exact condMinUpdate_mem client g0 ids0 c (by rw [hcnd]; exact hcm)
      cases cres with
      | error e =>
        obtain ⟨h0, hcall⟩ := hctmem _ h
        cases hcall
        exact ⟨g0, List.mem_cons_self g0 rest, ids0, rfl, hl, h0, rfl, rfl⟩
      | ok u =>
        cases hent : client.enterStandby g0.autoScalingGroupName ids0 true with
        | error e =>
          rw [hent] at h
          rcases List.mem_append.mp h with hmem | hmem
          · obtain ⟨h0, hcall⟩ := hctmem _ hmem
            cases hcall
            exact ⟨g0, List.mem_cons_self g0 rest, ids0, rfl, hl, h0, rfl, rfl⟩
          · simp at hmem
        | ok u2 =>
          rw [hent] at h
          rcases hrec : shutdownAsgLoop client assoc rest with ⟨res2, t2, w2⟩
          rw [hrec] at h
          rcases List.mem_append.mp h with hmem | hmem
          · rcases List.mem_append.mp hmem with hmem2 | hmem2
            · obtain ⟨h0, hcall⟩ := hctmem _ hmem2
              cases hcall
              exact ⟨g0, List.mem_cons_self g0 rest, ids0, rfl, hl, h0, rfl, rfl⟩
            · simp at hmem2
          · have : APICall.updateAsg n mo Mo ∈ (shutdownAsgLoop client assoc rest).2.1 := by
              rw [hrec]
              exact hmem
            obtain ⟨g2, hg2, ids2, hrest⟩ := ih n mo Mo this
            exact ⟨g2, List.mem_cons_of_mem _ hg2, ids2, hrest⟩

theorem condMinUpdate_fst_ok (client : Client) (g : AsgGroupRecord) (ids : List String)
    (hupd : ∀ n mo Mo, client.updateAutoScalingGroup n mo Mo = .ok ()) :
    (condMinUpdate client g ids).1 = .ok () := by
  unfold condMinUpdate
  by_cases h00 : 0 < g.minSize
  · rw [if_pos h00]
    exact hupd _ _ _
  · rw [if_neg h00]

theorem shutdownAsgLoop_seg (client : Client) (assoc : List (String × List String))
    (hupd : ∀ n mo Mo, client.updateAutoScalingGroup n mo Mo = .ok ())
    (hent : ∀ n ids2 b, client.enterStandby n ids2 b = .ok ()) :
    ∀ gs : List AsgGroupRecord, ∀ g ∈ gs, ∀ ids,
      lookupAssoc assoc g.autoScalingGroupName = some ids → 0 < g.minSize →
      ∃ t1 t2, (shutdownAsgLoop client assoc gs).2.1 =
        t1 ++ [.updateAsg g.autoScalingGroupName
                 (some (shutdownMinTarget g.minSize ids.length)) none,
               .enterStandby g.autoScalingGroupName ids true] ++ t2 := by
  intro gs
  induction gs with
  | nil =>
    intro g hg
    simp at hg
  | cons g0 rest ih =>
    intro g hg ids hl h0
    rcases List.mem_cons.mp hg with rfl | hgr
    · have hcnd : condMinUpdate client g ids =
          (.ok (), [.updateAsg g.autoScalingGroupName
            (some (shutdownMinTarget g.minSize ids.length)) none]) := by
        unfold condMinUpdate
        rw [if_pos h0, hupd]
      rcases hrec : shutdownAsgLoop client assoc rest with ⟨res2, t2, w2⟩
      simp only [shutdownAsgLoop, hl, hcnd, hent, hrec]
      exact ⟨[], t2, by simp⟩
    · obtain ⟨t1, t2, hdecomp⟩ := ih g hgr ids hl h0
      cases hl0 : lookupAssoc assoc g0.autoScalingGroupName with
      | none =>
        simp only [shutdownAsgLoop, hl0]
        exact ⟨t1, t2, hdecomp⟩
      | some ids0 =>
        rcases hcnd0 : condMinUpdate client g0 ids0 with ⟨cres0, ct0⟩
        have hok0 : cres0 = .ok () := by
          have h1 := condMinUpdate_fst_ok client g0 ids0 hupd
          rw [hcnd0] at h1
          exact h1
        subst hok0
        rcases hrec : shutdownAsgLoop client assoc rest with ⟨res2, t2r, w2⟩
        simp only [shutdownAsgLoop, hl0, hcnd0, hent, hrec]
        rw [hrec] at hdecomp
        dsimp only at hdecomp
        refine ⟨ct0 ++ [.enterStandby g0.autoScalingGroupName ids0 true] ++ t1, t2, ?_⟩
        rw [hdecomp]
        simp

theorem PrepareShutdown_trace_shape (client : Client) (group : Group)
    (out : List AsgInstanceDetails) (gs : List AsgGroupRecord)
    (hdesc : client.describeAutoScalingInstances (group.instances.map Ec2Instance.instanceId) =
      .ok out)
    (hne : groupByAsg LifecycleStateNameInService out ≠ [])
    (hgs : client.describeAutoScalingGroups
        ((groupByAsg LifecycleStateNameInService out).map Prod.fst) = .ok gs) :
    ∃ tail, (PrepareInstanceGroupForShutdown client group).2 =
      [.describeAsgInstances (group.instances.map Ec2Instance.instanceId),
        .describeAsgGroups ((groupByAsg LifecycleStateNameInService out).map Prod.fst)]
      ++ (shutdownAsgLoop client (groupByAsg LifecycleStateNameInService out) gs).2.1 ++ tail
      ∧ (tail = [] ∨ ∃ wids, tail = [.standbyWait wids]) := by
  have hne2 : (groupByAsg LifecycleStateNameInService out).isEmpty = false := by
    cases hq : groupByAsg LifecycleStateNameInService out with
    | nil => exact absurd hq hne
    | cons a as => rfl
  rcases hloop : shutdownAsgLoop client (groupByAsg LifecycleStateNameInService out) gs with
    ⟨res, t, w⟩
  simp only [PrepareInstanceGroupForShutdown, hdesc, hne2, hgs, hloop]
  cases res with
  | error e =>
    refine ⟨[], ?_, Or.inl rfl⟩
    simp
  | ok u =>
    cases hw : w.isEmpty with
    | true =>
      have hwe : w = [] := by
        cases w with
        | nil => rfl
        | cons a as => simp at hw
      subst hwe
      refine ⟨[], ?_, Or.inl rfl⟩
      simp
    | false =>
      cases ho : (standbyWaiterWaitForOutput curatorWaiterOptions DefaultWaitDuration
          client.standbyProbes).outcome with
      | success o =>
        refine ⟨[.standbyWait w], ?_, Or.inr ⟨w, rfl⟩⟩
        simp [hw]
      | failure e =>
        refine ⟨[.standbyWait w], ?_, Or.inr ⟨w, rfl⟩⟩
        simp [hw]
      | outOfTrace =>
        refine ⟨[.standbyWait w], ?_, Or.inr ⟨w, rfl⟩⟩
        simp [hw]

/-- Claim C5: in `PrepareInstanceGroupForShutdown`, for every described ASG
with current min size `m > 0` and `N` eligible (`InService`) instances, a
min-size update to `max 0 (m − N)` is issued immediately before that ASG's
`EnterStandby` call; and for an ASG with `m = 0` no min-size update is
issued at all. -/
theorem shutdown_lowers_min_before_standby (client : Client) (group : Group)
    (out : List AsgInstanceDetails) (gs : List AsgGroupRecord)
    (g : AsgGroupRecord) (ids : List String)
    (hdesc : client.describeAutoScalingInstances (group.instances.map Ec2Instance.instanceId) =
      .ok out)
    (hgs : client.describeAutoScalingGroups
        ((groupByAsg LifecycleStateNameInService out).map Prod.fst) = .ok gs)
    (hg : g ∈ gs)
    (hids : lookupAssoc (groupByAsg LifecycleStateNameInService out) g.autoScalingGroupName =
      some ids)
    (hupd : ∀ n mo Mo, client.updateAutoScalingGroup n mo Mo = .ok ())
    (hent : ∀ n ids2 b, client.enterStandby n ids2 b = .ok ())
    (hm0 : 0 ≤ g.minSize) (hm1 : g.minSize < 2 ^ 31) (hN : (ids.length : Int) < 2 ^ 31) :
    (0 < g.minSize →
      ∃ t1 t2, (PrepareInstanceGroupForShutdown client group).2 =
        t1 ++ [.updateAsg g.autoScalingGroupName (some (max 0 (g.minSize - ids.length))) none,
               .enterStandby g.autoScalingGroupName ids true] ++ t2)
    ∧ (g.minSize = 0 →
      (∀ g2 ∈ gs, g2.autoScalingGroupName = g.autoScalingGroupName → g2 = g) →
      ∀ mo Mo, APICall.updateAsg g.autoScalingGroupName mo Mo ∉
        (PrepareInstanceGroupForShutdown client group).2) := by
  have hne : groupByAsg LifecycleStateNameInService out ≠ [] := by
    intro hq
    rw [hq] at hids
    cases hids
  obtain ⟨tail, htr, htail⟩ := PrepareShutdown_trace_shape client group out gs hdesc hne hgs
  constructor
  · intro h0
    obtain ⟨t1, t2, hseg⟩ := shutdownAsgLoop_seg client
      (groupByAsg LifecycleStateNameInService out) hupd hent gs g hg ids hids h0
    rw [shutdownMinTarget_eq_max g.minSize ids.length hm0 hm1 hN] at hseg
    refine ⟨[.describeAsgInstances (group.instances.map Ec2Instance.instanceId),
      .describeAsgGroups ((groupByAsg LifecycleStateNameInService out).map Prod.fst)] ++ t1,
      t2 ++ tail, ?_⟩
    rw [htr, hseg]
    simp
  · intro h0 huniq mo Mo hmem
    rw [htr] at hmem
    rcases List.mem_append.mp hmem with hmem2 | hmem2
    · rcases List.mem_append.mp hmem2 with hmem3 | hmem3
      · simp at hmem3
      · obtain ⟨g2, hg2, ids2, hname2, hl2, h02, _, _⟩ :=
          shutdownAsgLoop_updateAsg_mem client (groupByAsg LifecycleStateNameInService out) gs
            (g.autoScalingGroupName) mo Mo hmem3
        have : g2 = g := huniq g2 hg2 hname2
        rw [this] at h02
        omega
    · rcases htail with rfl | ⟨wids, rfl⟩
      · simp at hmem2
      · simp at hmem2

/-- Witness for C5 at a concrete input: tear-down of two in-service instances
of ASG `asg1` with min size 3 (`tearDownClient`). -/
theorem shutdown_lowers_min_before_standby_applied :
    ((0 : Int) < 3 →
      ∃ t1 t2, (PrepareInstanceGroupForShutdown tearDownClient
          ⟨"g1", [], [⟨"i1"⟩, ⟨"i2"⟩]⟩).2 =
        t1 ++ [.updateAsg "asg1" (some (max 0 ((3 : Int) - (["i1", "i2"].length : Nat))) ) none,
               .enterStandby "asg1" ["i1", "i2"] true] ++ t2)
    ∧ ((3 : Int) = 0 →
      (∀ g2 ∈ [(⟨"asg1", 3, 5, ["i1", "i2", "i3"]⟩ : AsgGroupRecord)],
        g2.autoScalingGroupName = "asg1" → g2 = ⟨"asg1", 3, 5, ["i1", "i2", "i3"]⟩) →
      ∀ mo Mo, APICall.updateAsg "asg1" mo Mo ∉
        (PrepareInstanceGroupForShutdown tearDownClient ⟨"g1", [], [⟨"i1"⟩, ⟨"i2"⟩]⟩).2) :=
  shutdown_lowers_min_before_standby tearDownClient ⟨"g1", [], [⟨"i1"⟩, ⟨"i2"⟩]⟩
    [⟨"i1", "asg1", "InService"⟩, ⟨"i2", "asg1", "InService"⟩]
    [⟨"asg1", 3, 5, ["i1", "i2", "i3"]⟩] ⟨"asg1", 3, 5, ["i1", "i2", "i3"]⟩ ["i1", "i2"]
    rfl rfl (by decide) rfl (fun _ _ _ => rfl) (fun _ _ _ => rfl)
    (by decide) (by decide) (by decide)

theorem getElem?_mem_trace {l : List APICall} {j : Nat} {c : APICall}
    (h : l[j]? = some c) : c ∈ l := by
  obtain ⟨hlt, rfl⟩ := List.getElem?_eq_some.mp h
  exact List.getElem_mem hlt

theorem condMaxUpdate_fst_ok (client : Client) (g : AsgGroupRecord)
    (hupd : ∀ n mo Mo, client.updateAutoScalingGroup n mo Mo = .ok ()) :
    (condMaxUpdate client g).1 = .ok () := by
  unfold condMaxUpdate
  by_cases h00 : g.maxSize < wrap32 g.instances.length
  · rw [if_pos h00]
    exact hupd _ _ _
  · rw [if_neg h00]

theorem condMaxUpdate_trace (client : Client) (g : AsgGroupRecord) :
    (condMaxUpdate client g).2 =
      if g.maxSize < wrap32 g.instances.length then
        [.updateAsg g.autoScalingGroupName none (some (wrap32 g.instances.length))]
      else [] := by
  unfold condMaxUpdate
  by_cases hc : g.maxSize < wrap32 g.instances.length
  · rw [if_pos hc, if_pos hc]
  · rw [if_neg hc, if_neg hc]

theorem condMaxUpdate_mem (client : Client) (g : AsgGroupRecord)
    (c : APICall) (hc : c ∈ (condMaxUpdate client g).2) :
    g.maxSize < wrap32 g.instances.length ∧
      c = .updateAsg g.autoScalingGroupName none (some (wrap32 g.instances.length)) := by
  rw [condMaxUpdate_trace] at hc
  by_cases h0 : g.maxSize < wrap32 g.instances.length
  · rw [if_pos h0] at hc
    exact ⟨h0, by simpa using hc⟩
  · rw [if_neg h0] at hc
    simp at hc

theorem startupAsgExitLoop_mem (client : Client) (assoc : List (String × List String)) :
    ∀ gs : List AsgGroupRecord, ∀ c,
      c ∈ (startupAsgExitLoop client assoc gs).2.1 →
      (∃ g ∈ gs, g.maxSize < wrap32 g.instances.length ∧
        c = .updateAsg g.autoScalingGroupName none (some (wrap32 g.instances.length)))
      ∨ (∃ g ∈ gs, ∃ ids, lookupAssoc assoc g.autoScalingGroupName = some ids ∧
        c = .exitStandby g.autoScalingGroupName ids) := by
  intro gs
  induction gs with
  | nil =>
    intro c h
    exact absurd h (by intro hx; cases hx)
  | cons g0 rest ih =>
    intro c h
    rw [startupAsgExitLoop] at h
    rcases hrec : startupAsgExitLoop client assoc rest with ⟨res2, t2, w2⟩
    rw [hrec] at h
    cases hl : lookupAssoc assoc g0.autoScalingGroupName with
    | none =>
      simp only [startupAsgExitStep, hl] at h
      have h2 : c ∈ (startupAsgExitLoop client assoc rest).2.1 := by
        rw [hrec]
        exact h
      rcases ih c h2 with ⟨g2, hg2, hrest⟩ | ⟨g2, hg2, hrest⟩
      · exact Or.inl ⟨g2, List.mem_cons_of_mem _ hg2, hrest⟩
      · exact Or.inr ⟨g2, List.mem_cons_of_mem _ hg2, hrest⟩
    | some ids0 =>
      simp only [startupAsgExitStep, hl] at h
      rcases hcnd : condMaxUpdate client g0 with ⟨cres0, ct0⟩
      rw [hcnd] at h
      have hctmem : ∀ c2 ∈ ct0, g0.maxSize < wrap32 g0.instances.length ∧
          c2 = .updateAsg g0.autoScalingGroupName none
            (some (wrap32 g0.instances.length)) := by
        intro c2 hcm
        exact condMaxUpdate_mem client g0 c2 (by rw [hcnd]; exact hcm)
      cases cres0 with
      | error e =>
        obtain ⟨h0, hcall⟩ := hctmem _ h
        exact Or.inl ⟨g0, List.mem_cons_self g0 rest, h0, hcall⟩
      | ok u =>
        cases hext : client.exitStandby g0.autoScalingGroupName ids0 with
        | error e =>
          rw [hext] at h
          rcases List.mem_append.mp h with hmem | hmem
          · obtain ⟨h0, hcall⟩ := hctmem _ hmem
            exact Or.inl ⟨g0, List.mem_cons_self g0 rest, h0, hcall⟩
          · have : c = .exitStandby g0.autoScalingGroupName ids0 := by simpa using hmem
            exact Or.inr ⟨g0, List.mem_cons_self g0 rest, ids0, hl, this⟩
        | ok u2 =>
          rw [hext] at h
          rcases List.mem_append.mp h with hmem | hmem
          · rcases List.mem_append.mp hmem with hmem2 | hmem2
            · obtain ⟨h0, hcall⟩ := hctmem _ hmem2
              exact Or.inl ⟨g0, List.mem_cons_self g0 rest, h0, hcall⟩
            · have : c = .exitStandby g0.autoScalingGroupName ids0 := by simpa using hmem2
              exact Or.inr ⟨g0, List.mem_cons_self g0 rest, ids0, hl, this⟩
          · have hmem3 : c ∈ (startupAsgExitLoop client assoc rest).2.1 := by
              rw [hrec]
              exact hmem
            rcases ih c hmem3 with ⟨g2, hg2, hrest⟩ | ⟨g2, hg2, hrest⟩
            · exact Or.inl ⟨g2, List.mem_cons_of_mem _ hg2, hrest⟩
            · exact Or.inr ⟨g2, List.mem_cons_of_mem _ hg2, hrest⟩

theorem startupAsgMinLoop_mem (client : Client) (assoc : List (String × List String)) :
    ∀ gs : List AsgGroupRecord, ∀ c,
      c ∈ (startupAsgMinLoop client assoc gs).2 →
      ∃ g ∈ gs, ∃ ids, lookupAssoc assoc g.autoScalingGroupName = some ids ∧
        g.minSize < wrap32 ids.length ∧
        c = .updateAsg g.autoScalingGroupName (some (wrap32 ids.length)) none := by
  intro gs
  induction gs with
  | nil =>
    intro c h
    exact absurd h (by intro hx; cases hx)
  | cons g0 rest ih =>
    intro c h
    rw [startupAsgMinLoop] at h
    rcases hrec : startupAsgMinLoop client assoc rest with ⟨res2, t2⟩
    rw [hrec] at h
    cases hl : lookupAssoc assoc g0.autoScalingGroupName with
    | none =>
      simp only [startupAsgMinStep, hl] at h
      have h2 : c ∈ (startupAsgMinLoop client assoc rest).2 := by
        rw [hrec]
        exact h
      obtain ⟨g2, hg2, hrest⟩ := ih c h2
      exact ⟨g2, List.mem_cons_of_mem _ hg2, hrest⟩
    | some ids0 =>
      by_cases hge : g0.minSize ≥ wrap32 ids0.length
      · simp only [startupAsgMinStep, hl, if_pos hge] at h
        have h2 : c ∈ (startupAsgMinLoop client assoc rest).2 := by
          rw [hrec]
          exact h
        obtain ⟨g2, hg2, hrest⟩ := ih c h2
        exact ⟨g2, List.mem_cons_of_mem _ hg2, hrest⟩
      · simp only [startupAsgMinStep, hl, if_neg hge] at h
        have hlt : g0.minSize < wrap32 ids0.length := lt_of_not_ge hge
        cases hup : client.updateAutoScalingGroup g0.autoScalingGroupName
            (some (wrap32 ids0.length)) none with
        | error e =>
          rw [hup] at h
          have : c = .updateAsg g0.autoScalingGroupName (some (wrap32 ids0.length)) none := by
            simpa using h
          exact ⟨g0, List.mem_cons_self g0 rest, ids0, hl, hlt, this⟩
        | ok u =>
          rw [hup] at h
          rcases List.mem_cons.mp h with hc0 | hmem
          · exact ⟨g0, List.mem_cons_self g0 rest, ids0, hl, hlt, hc0⟩
          · have hmem2 : c ∈ (startupAsgMinLoop client assoc rest).2 := by
              rw [hrec]
              exact hmem
            obtain ⟨g2, hg2, hrest⟩ := ih c hmem2
            exact ⟨g2, List.mem_cons_of_mem _ hg2, hrest⟩

theorem PrepareStartup_trace_shape (client : Client) (group : Group)
    (out : List AsgInstanceDetails) (gs : List AsgGroupRecord)
    (hdesc : client.describeAutoScalingInstances (group.instances.map Ec2Instance.instanceId) =
      .ok out)
    (hne : groupByAsg LifecycleStateNameStandby out ≠ [])
    (hgs : client.describeAutoScalingGroups
        ((groupByAsg LifecycleStateNameStandby out).map Prod.fst) = .ok gs) :
    ((PrepareInstanceGroupForStartup client group).2 =
      [.describeAsgInstances (group.instances.map Ec2Instance.instanceId),
        .describeAsgGroups ((groupByAsg LifecycleStateNameStandby out).map Prod.fst)]
      ++ (startupAsgExitLoop client (groupByAsg LifecycleStateNameStandby out) gs).2.1)
    ∨ ((∀ o, (inServiceWaiterWaitForOutput curatorWaiterOptions DefaultWaitDuration
          client.inServiceProbes).outcome ≠ .success o)
      ∧ (PrepareInstanceGroupForStartup client group).2 =
        [.describeAsgInstances (group.instances.map Ec2Instance.instanceId),
          .describeAsgGroups ((groupByAsg LifecycleStateNameStandby out).map Prod.fst)]
        ++ (startupAsgExitLoop client (groupByAsg LifecycleStateNameStandby out) gs).2.1
        ++ [.inServiceWait
              (startupAsgExitLoop client (groupByAsg LifecycleStateNameStandby out) gs).2.2])
    ∨ (∃ o, (inServiceWaiterWaitForOutput curatorWaiterOptions DefaultWaitDuration
          client.inServiceProbes).outcome = .success o
      ∧ (PrepareInstanceGroupForStartup client group).2 =
        [.describeAsgInstances (group.instances.map Ec2Instance.instanceId),
          .describeAsgGroups ((groupByAsg LifecycleStateNameStandby out).map Prod.fst)]
        ++ (startupAsgExitLoop client (groupByAsg LifecycleStateNameStandby out) gs).2.1
        ++ [.inServiceWait
              (startupAsgExitLoop client (groupByAsg LifecycleStateNameStandby out) gs).2.2]
        ++ (startupAsgMinLoop client (groupByAsg LifecycleStateNameStandby out) gs).2) := by
  have hne2 : (groupByAsg LifecycleStateNameStandby out).isEmpty = false := by
    cases hq : groupByAsg LifecycleStateNameStandby out with
    | nil => exact absurd hq hne
    | cons a as => rfl
  rcases hloop : startupAsgExitLoop client (groupByAsg LifecycleStateNameStandby out) gs with
    ⟨res, t, w⟩
  simp only [PrepareInstanceGroupForStartup, hdesc, hne2, hgs, hloop]
  cases res with
  | error e =>
    refine Or.inl ?_
    simp
  | ok u =>
    cases hw : w.isEmpty with
    | true =>
      have hwe : w = [] := by
        cases w with
        | nil => rfl
        | cons a as => simp at hw
      subst hwe
      refine Or.inl ?_
      simp
    | false =>
      cases ho : (inServiceWaiterWaitForOutput curatorWaiterOptions DefaultWaitDuration
          client.inServiceProbes).outcome with
      | success o =>
        rcases hml : startupAsgMinLoop client (groupByAsg LifecycleStateNameStandby out) gs with
          ⟨res2, t2⟩
        refine Or.inr (Or.inr ⟨o, rfl, ?_⟩)
        simp [hw, hml]
      | failure e =>
        refine Or.inr (Or.inl ⟨by simp, ?_⟩)
        simp [hw]
      | outOfTrace =>
        refine Or.inr (Or.inl ⟨by simp, ?_⟩)
        simp [hw]

/-- Claim C6: the startup capacity path never lowers an ASG's size bounds.
Every max-size update in the trace of `PrepareInstanceGroupForStartup` sets
`MaxSize` to the ASG's full member count and occurs only when the current
`MaxSize` is strictly below it; every min-size update sets `MinSize` to the
number of eligible instances returned to service and occurs only when the
current `MinSize` is strictly below it; min-size updates happen only when the
in-service wait succeeded, and always at a trace position strictly after the
in-service wait. -/
theorem startup_never_lowers_bounds (client : Client) (group : Group)
    (out : List AsgInstanceDetails) (gs : List AsgGroupRecord)
    (hdesc : client.describeAutoScalingInstances (group.instances.map Ec2Instance.instanceId) =
      .ok out)
    (hgs : client.describeAutoScalingGroups
        ((groupByAsg LifecycleStateNameStandby out).map Prod.fst) = .ok gs) :
    (∀ n M, APICall.updateAsg n none (some M) ∈ (PrepareInstanceGroupForStartup client group).2 →
      ∃ g ∈ gs, g.autoScalingGroupName = n ∧ M = wrap32 g.instances.length ∧ g.maxSize < M)
    ∧ (∀ n m, APICall.updateAsg n (some m) none ∈ (PrepareInstanceGroupForStartup client group).2 →
      ∃ g ∈ gs, ∃ ids, g.autoScalingGroupName = n ∧
        lookupAssoc (groupByAsg LifecycleStateNameStandby out) n = some ids ∧
        m = wrap32 ids.length ∧ g.minSize < m)
    ∧ ((∀ o, (inServiceWaiterWaitForOutput curatorWaiterOptions DefaultWaitDuration
          client.inServiceProbes).outcome ≠ .success o) →
      ∀ n m, APICall.updateAsg n (some m) none ∉ (PrepareInstanceGroupForStartup client group).2)
    ∧ (∀ (j : Nat) (n : String) (m : Int),
        (PrepareInstanceGroupForStartup client group).2[j]? =
          some (APICall.updateAsg n (some m) none) →
      ∃ (i : Nat) (wids : List String), i < j ∧
        (PrepareInstanceGroupForStartup client group).2[i]? =
          some (APICall.inServiceWait wids)) := by
  by_cases hq : groupByAsg LifecycleStateNameStandby out = []
  · have htr : (PrepareInstanceGroupForStartup client group).2 =
        [.describeAsgInstances (group.instances.map Ec2Instance.instanceId)] := by
      simp only [PrepareInstanceGroupForStartup, hdesc, hq]
      simp
    refine ⟨?_, ?_, ?_, ?_⟩
    · intro n M h
      rw [htr] at h
      simp at h
    · intro n m h
      rw [htr] at h
      simp at h
    · intro _ n m h
      rw [htr] at h
      simp at h
    · intro j n m h
      have hm := getElem?_mem_trace h
      rw [htr] at hm
      simp at hm
  · have hexit := startupAsgExitLoop_mem client (groupByAsg LifecycleStateNameStandby out) gs
    have hmin := startupAsgMinLoop_mem client (groupByAsg LifecycleStateNameStandby out) gs
    have hexitNoMin : ∀ n m, APICall.updateAsg n (some m) none ∉
        (startupAsgExitLoop client (groupByAsg LifecycleStateNameStandby out) gs).2.1 := by
      intro n m hmem
      rcases hexit _ hmem with ⟨g2, hg2, hlt, hcall⟩ | ⟨g2, hg2, ids2, hl2, hcall⟩
      · simp at hcall
      · simp at hcall
    have hexitMax : ∀ n M, APICall.updateAsg n none (some M) ∈
        (startupAsgExitLoop client (groupByAsg LifecycleStateNameStandby out) gs).2.1 →
        ∃ g ∈ gs, g.autoScalingGroupName = n ∧ M = wrap32 g.instances.length ∧
          g.maxSize < M := by
      intro n M hmem
      rcases hexit _ hmem with ⟨g2, hg2, hlt, hcall⟩ | ⟨g2, hg2, ids2, hl2, hcall⟩
      · injection hcall with e1 e2 e3
        have hM : M = wrap32 g2.instances.length := Option.some.inj e3
        refine ⟨g2, hg2, e1.symm, hM, ?_⟩
        rw [hM]
        exact hlt
      · simp at hcall
    have hminChar : ∀ n m, APICall.updateAsg n (some m) none ∈
        (startupAsgMinLoop client (groupByAsg LifecycleStateNameStandby out) gs).2 →
        ∃ g ∈ gs, ∃ ids, g.autoScalingGroupName = n ∧
          lookupAssoc (groupByAsg LifecycleStateNameStandby out) n = some ids ∧
          m = wrap32 ids.length ∧ g.minSize < m := by
      intro n m hmem
      obtain ⟨g2, hg2, ids2, hl2, hlt2, hcall⟩ := hmin _ hmem
      injection hcall with e1 e2 e3
      have hm2 : m = wrap32 ids2.length := Option.some.inj e2
      refine ⟨g2, hg2, ids2, e1.symm, ?_, hm2, ?_⟩
      · rw [e1]
        exact hl2
      · rw [hm2]
        exact hlt2
    have hminNoMax : ∀ n M, APICall.updateAsg n none (some M) ∉
        (startupAsgMinLoop client (groupByAsg LifecycleStateNameStandby out) gs).2 := by
      intro n M hmem
      obtain ⟨g2, hg2, ids2, hl2, hlt2, hcall⟩ := hmin _ hmem
      simp at hcall
    rcases PrepareStartup_trace_shape client group out gs hdesc hq hgs with
      htr | ⟨hWne, htr⟩ | ⟨o, hWs, htr⟩
    · refine ⟨?_, ?_, ?_, ?_⟩
      · intro n M h
        rw [htr] at h
        rcases List.mem_append.mp h with hpre | hex
        · simp at hpre
        · exact hexitMax n M hex
      · intro n m h
        rw [htr] at h
        rcases List.mem_append.mp h with hpre | hex
        · simp at hpre
        · exact absurd hex (hexitNoMin n m)
      · intro _ n m h
        rw [htr] at h
        rcases List.mem_append.mp h with hpre | hex
        · simp at hpre
        · exact absurd hex (hexitNoMin n m)
      · intro j n m h
        have hm := getElem?_mem_trace h
        rw [htr] at hm
        rcases List.mem_append.mp hm with hpre | hex
        · simp at hpre
        · exact absurd hex (hexitNoMin n m)
    · refine ⟨?_, ?_, ?_, ?_⟩
      · intro n M h
        rw [htr] at h
        rcases List.mem_append.mp h with h2 | hmark
        · rcases List.mem_append.mp h2 with hpre | hex
          · simp at hpre
          · exact hexitMax n M hex
        · simp at hmark
      · intro n m h
        rw [htr] at h
        rcases List.mem_append.mp h with h2 | hmark
        · rcases List.mem_append.mp h2 with hpre | hex
          · simp at hpre
          · exact absurd hex (hexitNoMin n m)
        · simp at hmark
      · intro _ n m h
        rw [htr] at h
        rcases List.mem_append.mp h with h2 | hmark
        · rcases List.mem_append.mp h2 with hpre | hex
          · simp at hpre
          · exact absurd hex (hexitNoMin n m)
        · simp at hmark
      · intro j n m h
        have hm := getElem?_mem_trace h
        rw [htr] at hm
        rcases List.mem_append.mp hm with h2 | hmark
        · rcases List.mem_append.mp h2 with hpre | hex
          · simp at hpre
          · exact absurd hex (hexitNoMin n m)
        · simp at hmark
    · have htr2 : (PrepareInstanceGroupForStartup client group).2 =
          ([.describeAsgInstances (group.instances.map Ec2Instance.instanceId),
            .describeAsgGroups ((groupByAsg LifecycleStateNameStandby out).map Prod.fst)]
          ++ (startupAsgExitLoop client (groupByAsg LifecycleStateNameStandby out) gs).2.1)
          ++ (.inServiceWait
              (startupAsgExitLoop client (groupByAsg LifecycleStateNameStandby out) gs).2.2
            :: (startupAsgMinLoop client (groupByAsg LifecycleStateNameStandby out) gs).2) := by
        rw [htr]
        simp
      have hAno : ∀ n m, APICall.updateAsg n (some m) none ∉
          ([APICall.describeAsgInstances (group.instances.map Ec2Instance.instanceId),
            APICall.describeAsgGroups ((groupByAsg LifecycleStateNameStandby out).map Prod.fst)]
          ++ (startupAsgExitLoop client (groupByAsg LifecycleStateNameStandby out) gs).2.1) := by
        intro n m hmem
        rcases List.mem_append.mp hmem with hpre | hex
        · simp at hpre
        · exact absurd hex (hexitNoMin n m)
      refine ⟨?_, ?_, ?_, ?_⟩
      · intro n M h
        rw [htr2] at h
        rcases List.mem_append.mp h with h2 | h3
        · rcases List.mem_append.mp h2 with hpre | hex
          · simp at hpre
          · exact hexitMax n M hex
        · rcases List.mem_cons.mp h3 with hmark | hminm
          · simp at hmark
          · exact absurd hminm (hminNoMax n M)
      · intro n m h
        rw [htr2] at h
        rcases List.mem_append.mp h with h2 | h3
        · exact absurd h2 (hAno n m)
        · rcases List.mem_cons.mp h3 with hmark | hminm
          · simp at hmark
          · exact hminChar n m hminm
      · intro hWne n m _
        exact absurd hWs (hWne o)
      · intro j n m h
        have hidx : (PrepareInstanceGroupForStartup client group).2[
            ([APICall.describeAsgInstances (group.instances.map Ec2Instance.instanceId),
              APICall.describeAsgGroups
                ((groupByAsg LifecycleStateNameStandby out).map Prod.fst)]
            ++ (startupAsgExitLoop client
                (groupByAsg LifecycleStateNameStandby out) gs).2.1).length]? =
            some (APICall.inServiceWait (startupAsgExitLoop client
              (groupByAsg LifecycleStateNameStandby out) gs).2.2) := by
          rw [htr2, List.getElem?_append, if_neg (lt_irrefl _), Nat.sub_self]
          simp
        rcases Nat.lt_trichotomy j
          ([APICall.describeAsgInstances (group.instances.map Ec2Instance.instanceId),
            APICall.describeAsgGroups ((groupByAsg LifecycleStateNameStandby out).map Prod.fst)]
          ++ (startupAsgExitLoop client
              (groupByAsg LifecycleStateNameStandby out) gs).2.1).length with hj | hj | hj
        · exfalso
          rw [htr2, List.getElem?_append, if_pos hj] at h
          exact absurd (getElem?_mem_trace h) (hAno n m)
        · exfalso
          rw [hj, hidx] at h
          cases h
        · exact ⟨_, _, hj, hidx⟩

/-- Witness for C6 at a concrete input: the bring-up environment
`bringUpClient`, whose trace contains both a max-size and a min-size update. -/
theorem startup_never_lowers_bounds_applied :
    (∀ n M, APICall.updateAsg n none (some M) ∈
        (PrepareInstanceGroupForStartup bringUpClient ⟨"g1", [], [⟨"i1"⟩]⟩).2 →
      ∃ g ∈ [(⟨"asg1", 0, 0, ["i1", "i2"]⟩ : AsgGroupRecord)], g.autoScalingGroupName = n ∧
        M = wrap32 g.instances.length ∧ g.maxSize < M)
    ∧ (∀ n m, APICall.updateAsg n (some m) none ∈
        (PrepareInstanceGroupForStartup bringUpClient ⟨"g1", [], [⟨"i1"⟩]⟩).2 →
      ∃ g ∈ [(⟨"asg1", 0, 0, ["i1", "i2"]⟩ : AsgGroupRecord)], ∃ ids,
        g.autoScalingGroupName = n ∧
        lookupAssoc (groupByAsg LifecycleStateNameStandby [⟨"i1", "asg1", "Standby"⟩]) n =
          some ids ∧
        m = wrap32 ids.length ∧ g.minSize < m)
    ∧ ((∀ o, (inServiceWaiterWaitForOutput curatorWaiterOptions DefaultWaitDuration
          bringUpClient.inServiceProbes).outcome ≠ .success o) →
      ∀ n m, APICall.updateAsg n (some m) none ∉
        (PrepareInstanceGroupForStartup bringUpClient ⟨"g1", [], [⟨"i1"⟩]⟩).2)
    ∧ (∀ (j : Nat) (n : String) (m : Int),
        (PrepareInstanceGroupForStartup bringUpClient ⟨"g1", [], [⟨"i1"⟩]⟩).2[j]? =
          some (APICall.updateAsg n (some m) none) →
      ∃ (i : Nat) (wids : List String), i < j ∧
        (PrepareInstanceGroupForStartup bringUpClient ⟨"g1", [], [⟨"i1"⟩]⟩).2[i]? =
          some (APICall.inServiceWait wids)) :=
  startup_never_lowers_bounds bringUpClient ⟨"g1", [], [⟨"i1"⟩]⟩
    [⟨"i1", "asg1", "Standby"⟩] [⟨"asg1", 0, 0, ["i1", "i2"]⟩] rfl rfl

/-! ## Immediate propagation of direct call failures

Every call the capacity controller and the sequencer issue is recorded in
the trace; the lemmas below decompose each operation's trace into calls that
replayed successfully followed, in the error case, by the failing call as
the final entry. -/

theorem callError_last (client : Client) (res : Except String Unit) (t : List APICall)
    (hok : res = .ok () → ∀ c ∈ t, callError client c = none)
    (herr : ∀ e2, res = .error e2 → ∃ t2 c0, t = t2 ++ [c0]
      ∧ (∀ c ∈ t2, callError client c = none)
      ∧ (callError client c0 = some e2 ∨ callError client c0 = none)) :
    ∀ (j : Nat) (c : APICall) (e : String), t[j]? = some c →
      callError client c = some e → res = .error e ∧ j + 1 = t.length := by
  intro j c e hj he
  cases res with
  | ok u =>
    cases u
    have hn := hok rfl c (getElem?_mem_trace hj)
    rw [hn] at he
    exact Option.noConfusion he
  | error e0 =>
    obtain ⟨t2, c0, hdec, hnone, hc0⟩ := herr e0 rfl
    subst hdec
    rw [List.getElem?_append] at hj
    by_cases hlt : j < t2.length
    · rw [if_pos hlt] at hj
      have hn := hnone c (getElem?_mem_trace hj)
      rw [hn] at he
      exact Option.noConfusion he
    · rw [if_neg hlt] at hj
      cases hd0 : j - t2.length with
      | zero =>
        rw [hd0] at hj
        simp only [List.getElem?_cons_zero] at hj
        obtain rfl : c0 = c := Option.some.inj hj
        rcases hc0 with hc0 | hc0
        · rw [he] at hc0
          obtain rfl : e = e0 := Option.some.inj hc0
          refine ⟨rfl, ?_⟩
          simp only [List.length_append, List.length_cons, List.length_nil]
          omega
        · rw [hc0] at he
          exact Option.noConfusion he
      | succ n =>
        rw [hd0] at hj
        simp at hj

theorem condMinUpdate_callError_decomp (client : Client) (g : AsgGroupRecord)
    (ids : List String) :
    ((condMinUpdate client g ids).1 = .ok () →
      ∀ c ∈ (condMinUpdate client g ids).2, callError client c = none)
    ∧ (∀ e, (condMinUpdate client g ids).1 = .error e →
      ∃ c0, (condMinUpdate client g ids).2 = [c0] ∧ callError client c0 = some e) := by
  unfold condMinUpdate
  by_cases h0 : 0 < g.minSize
  · rw [if_pos h0]
    cases hu : client.updateAutoScalingGroup g.autoScalingGroupName
        (some (shutdownMinTarget g.minSize ids.length)) none with
    | error e0 =>
      refine ⟨fun h => Except.noConfusion h, ?_⟩
      intro e he
      obtain rfl : e0 = e := Except.error.inj he
      refine ⟨.updateAsg g.autoScalingGroupName
        (some (shutdownMinTarget g.minSize ids.length)) none, rfl, ?_⟩
      simp only [callError, hu]
    | ok u =>
      cases u
      refine ⟨?_, fun e he => Except.noConfusion he⟩
      intro _ c hc
      have hcu : c = .updateAsg g.autoScalingGroupName
          (some (shutdownMinTarget g.minSize ids.length)) none := by
        simpa using hc
      subst hcu
      simp only [callError, hu]
  · rw [if_neg h0]
    refine ⟨?_, fun e he => Except.noConfusion he⟩
    intro _ c hc
    exact absurd hc (by intro hx; cases hx)

theorem condMaxUpdate_callError_decomp (client : Client) (g : AsgGroupRecord) :
    ((condMaxUpdate client g).1 = .ok () →
      ∀ c ∈ (condMaxUpdate client g).2, callError client c = none)
    ∧ (∀ e, (condMaxUpdate client g).1 = .error e →
      ∃ c0, (condMaxUpdate client g).2 = [c0] ∧ callError client c0 = some e) := by
  unfold condMaxUpdate
  by_cases h0 : g.maxSize < wrap32 g.instances.length
  · rw [if_pos h0]
    cases hu : client.updateAutoScalingGroup g.autoScalingGroupName none
        (some (wrap32 g.instances.length)) with
    | error e0 =>
      refine ⟨fun h => Except.noConfusion h, ?_⟩
      intro e he
      obtain rfl : e0 = e := Except.error.inj he
      refine ⟨.updateAsg g.autoScalingGroupName none (some (wrap32 g.instances.length)),
        rfl, ?_⟩
      simp only [callError, hu]
    | ok u =>
      cases u
      refine ⟨?_, fun e he => Except.noConfusion he⟩
      intro _ c hc
      have hcu : c = .updateAsg g.autoScalingGroupName none
          (some (wrap32 g.instances.length)) := by
        simpa using hc
      subst hcu
      simp only [callError, hu]
  · rw [if_neg h0]
    refine ⟨?_, fun e he => Except.noConfusion he⟩
    intro _ c hc
    exact absurd hc (by intro hx; cases hx)

theorem shutdownAsgLoop_callError_decomp (client : Client)
    (assoc : List (String × List String)) :
    ∀ gs : List AsgGroupRecord,
      ((shutdownAsgLoop client assoc gs).1 = .ok () →
        ∀ c ∈ (shutdownAsgLoop client assoc gs).2.1, callError client c = none)
      ∧ (∀ e, (shutdownAsgLoop client assoc gs).1 = .error e →
        ∃ t2 c0, (shutdownAsgLoop client assoc gs).2.1 = t2 ++ [c0]
          ∧ (∀ c ∈ t2, callError client c = none)
          ∧ callError client c0 = some e) := by
  intro gs
  induction gs with
  | nil =>
    refine ⟨fun _ c hc => absurd hc ?_, fun e he => Except.noConfusion he⟩
    intro hx
    cases hx
  | cons g0 rest ih =>
    cases hl : lookupAssoc assoc g0.autoScalingGroupName with
    | none =>
      simp only [shutdownAsgLoop, hl]
      exact ih
    | some ids0 =>
      obtain ⟨hcok, hcerr⟩ := condMinUpdate_callError_decomp client g0 ids0
      rcases hcnd : condMinUpdate client g0 ids0 with ⟨cres, ct⟩
      rw [hcnd] at hcok hcerr
      dsimp only at hcok hcerr
      cases cres with
      | error e0 =>
        simp only [shutdownAsgLoop, hl, hcnd]
        refine ⟨fun h => Except.noConfusion h, ?_⟩
        intro e he
        obtain rfl : e0 = e := Except.error.inj he
        obtain ⟨c0, hct, hc0⟩ := hcerr e0 rfl
        subst hct
        exact ⟨[], c0, rfl, fun c hc => absurd hc (by intro hx; cases hx), hc0⟩
      | ok u =>
        cases u
        have hentc : ∀ e1, client.enterStandby g0.autoScalingGroupName ids0 true = e1 →
            callError client (.enterStandby g0.autoScalingGroupName ids0 true) =
              match e1 with
              | .error e2 => some e2
              | .ok _ => none := by
          intro e1 he1
          simp only [callError, he1]
        cases hent : client.enterStandby g0.autoScalingGroupName ids0 true with
        | error e1 =>
          simp only [shutdownAsgLoop, hl, hcnd, hent]
          refine ⟨fun h => Except.noConfusion h, ?_⟩
          intro e he
          obtain rfl : e1 = e := Except.error.inj he
          exact ⟨ct, .enterStandby g0.autoScalingGroupName ids0 true, rfl, hcok rfl,
            hentc _ hent⟩
        | ok u2 =>
          cases u2
          obtain ⟨hrok, hrerr⟩ := ih
          rcases hrec : shutdownAsgLoop client assoc rest with ⟨res2, t2, w2⟩
          rw [hrec] at hrok hrerr
          dsimp only at hrok hrerr
          cases res2 with
          | error e2 =>
            simp only [shutdownAsgLoop, hl, hcnd, hent, hrec]
            refine ⟨fun h => Except.noConfusion h, ?_⟩
            intro e he
            obtain rfl : e2 = e := Except.error.inj he
            obtain ⟨t3, c0, hdec, hnone3, hc0⟩ := hrerr e2 rfl
            subst hdec
            refine ⟨ct ++ [.enterStandby g0.autoScalingGroupName ids0 true] ++ t3, c0,
              by simp, ?_, hc0⟩
            intro c hc
            rcases List.mem_append.mp hc with hc1 | hc1
            · rcases List.mem_append.mp hc1 with hc2 | hc2
              · exact hcok rfl c hc2
              · have hce : c = .enterStandby g0.autoScalingGroupName ids0 true := by
                  simpa using hc2
                subst hce
                exact hentc _ hent
            · exact hnone3 c hc1
          | ok u3 =>
            cases u3
            simp only [shutdownAsgLoop, hl, hcnd, hent, hrec]
            refine ⟨?_, fun e he => Except.noConfusion he⟩
            intro _ c hc
            rcases List.mem_append.mp hc with hc1 | hc1
            · rcases List.mem_append.mp hc1 with hc2 | hc2
              · exact hcok rfl c hc2
              · have hce : c = .enterStandby g0.autoScalingGroupName ids0 true := by
                  simpa using hc2
                subst hce
                exact hentc _ hent
            · exact hrok rfl c hc1

theorem startupAsgExitLoop_callError_decomp (client : Client)
    (assoc : List (String × List String)) :
    ∀ gs : List AsgGroupRecord,
      ((startupAsgExitLoop client assoc gs).1 = .ok () →
        ∀ c ∈ (startupAsgExitLoop client assoc gs).2.1, callError client c = none)
      ∧ (∀ e, (startupAsgExitLoop client assoc gs).1 = .error e →
        ∃ t2 c0, (startupAsgExitLoop client assoc gs).2.1 = t2 ++ [c0]
          ∧ (∀ c ∈ t2, callError client c = none)
          ∧ callError client c0 = some e) := by
  intro gs
  induction gs with
  | nil =>
    refine ⟨fun _ c hc => absurd hc ?_, fun e he => Except.noConfusion he⟩
    intro hx
    cases hx
  | cons g0 rest ih =>
    obtain ⟨hrok, hrerr⟩ := ih
    rcases hrec : startupAsgExitLoop client assoc rest with ⟨res2, t2, w2⟩
    rw [hrec] at hrok hrerr
    dsimp only at hrok hrerr
    cases hl : lookupAssoc assoc g0.autoScalingGroupName with
    | none =>
      simp only [startupAsgExitLoop, startupAsgExitStep, hl, hrec]
      exact ⟨hrok, hrerr⟩
    | some ids0 =>
      obtain ⟨hcok, hcerr⟩ := condMaxUpdate_callError_decomp client g0
      rcases hcnd : condMaxUpdate client g0 with ⟨cres, ct⟩
      rw [hcnd] at hcok hcerr
      dsimp only at hcok hcerr
      cases cres with
      | error e0 =>
        simp only [startupAsgExitLoop, startupAsgExitStep, hl, hcnd, hrec]
        refine ⟨fun h => Except.noConfusion h, ?_⟩
        intro e he
        obtain rfl : e0 = e := Except.error.inj he
        obtain ⟨c0, hct, hc0⟩ := hcerr e0 rfl
        subst hct
        exact ⟨[], c0, rfl, fun c hc => absurd hc (by intro hx; cases hx), hc0⟩
      | ok u =>
        cases u
        have hextc : ∀ e1, client.exitStandby g0.autoScalingGroupName ids0 = e1 →
            callError client (.exitStandby g0.autoScalingGroupName ids0) =
              match e1 with
              | .error e2 => some e2
              | .ok _ => none := by
          intro e1 he1
          simp only [callError, he1]
        cases hext : client.exitStandby g0.autoScalingGroupName ids0 with
        | error e1 =>
          simp only [startupAsgExitLoop, startupAsgExitStep, hl, hcnd, hext, hrec]
          refine ⟨fun h => Except.noConfusion h, ?_⟩
          intro e he
          obtain rfl : e1 = e := Except.error.inj he
          exact ⟨ct, .exitStandby g0.autoScalingGroupName ids0, rfl, hcok rfl, hextc _ hext⟩
        | ok u2 =>
          cases u2
          cases res2 with
          | error e2 =>
            simp only [startupAsgExitLoop, startupAsgExitStep, hl, hcnd, hext, hrec]
            refine ⟨fun h => Except.noConfusion h, ?_⟩
            intro e he
            obtain rfl : e2 = e := Except.error.inj he
            obtain ⟨t3, c0, hdec, hnone3, hc0⟩ := hrerr e2 rfl
            subst hdec
            refine ⟨ct ++ [.exitStandby g0.autoScalingGroupName ids0] ++ t3, c0,
              by simp, ?_, hc0⟩
            intro c hc
            rcases List.mem_append.mp hc with hc1 | hc1
            · rcases List.mem_append.mp hc1 with hc2 | hc2
              · exact hcok rfl c hc2
              · have hce : c = .exitStandby g0.autoScalingGroupName ids0 := by
                  simpa using hc2
                subst hce
                exact hextc _ hext
            · exact hnone3 c hc1
          | ok u3 =>
            cases u3
            simp only [startupAsgExitLoop, startupAsgExitStep, hl, hcnd, hext, hrec]
            refine ⟨?_, fun e he => Except.noConfusion he⟩
            intro _ c hc
            rcases List.mem_append.mp hc with hc1 | hc1
            · rcases List.mem_append.mp hc1 with hc2 | hc2
              · exact hcok rfl c hc2
              · have hce : c = .exitStandby g0.autoScalingGroupName ids0 := by
                  simpa using hc2
                subst hce
                exact hextc _ hext
            · exact hrok rfl c hc1

theorem startupAsgMinLoop_callError_decomp (client : Client)
    (assoc : List (String × List String)) :
    ∀ gs : List AsgGroupRecord,
      ((startupAsgMinLoop client assoc gs).1 = .ok () →
        ∀ c ∈ (startupAsgMinLoop client assoc gs).2, callError client c = none)
      ∧ (∀ e, (startupAsgMinLoop client assoc gs).1 = .error e →
        ∃ t2 c0, (startupAsgMinLoop client assoc gs).2 = t2 ++ [c0]
          ∧ (∀ c ∈ t2, callError client c = none)
          ∧ callError client c0 = some e) := by
  intro gs
  induction gs with
  | nil =>
    refine ⟨fun _ c hc => absurd hc ?_, fun e he => Except.noConfusion he⟩
    intro hx
    cases hx
  | cons g0 rest ih =>
    obtain ⟨hrok, hrerr⟩ := ih
    rcases hrec : startupAsgMinLoop client assoc rest with ⟨res2, t2⟩
    rw [hrec] at hrok hrerr
    dsimp only at hrok hrerr
    cases hl : lookupAssoc assoc g0.autoScalingGroupName with
    | none =>
      simp only [startupAsgMinLoop, startupAsgMinStep, hl, hrec]
      exact ⟨hrok, hrerr⟩
    | some ids0 =>
      by_cases hge : g0.minSize ≥ wrap32 ids0.length
      · simp only [startupAsgMinLoop, startupAsgMinStep, hl, if_pos hge, hrec]
        exact ⟨hrok, hrerr⟩
      · have hupc : ∀ e1, client.updateAutoScalingGroup g0.autoScalingGroupName
              (some (wrap32 ids0.length)) none = e1 →
            callError client (.updateAsg g0.autoScalingGroupName
                (some (wrap32 ids0.length)) none) =
              match e1 with
              | .error e2 => some e2
              | .ok _ => none := by
          intro e1 he1
          simp only [callError, he1]
        cases hup : client.updateAutoScalingGroup g0.autoScalingGroupName
            (some (wrap32 ids0.length)) none with
        | error e0 =>
          simp only [startupAsgMinLoop, startupAsgMinStep, hl, if_neg hge, hrec, hup]
          refine ⟨fun h => Except.noConfusion h, ?_⟩
          intro e he
          obtain rfl : e0 = e := Except.error.inj he
          exact ⟨[], .updateAsg g0.autoScalingGroupName (some (wrap32 ids0.length)) none,
            rfl, fun c hc => absurd hc (by intro hx; cases hx), hupc _ hup⟩
        | ok u =>
          cases u
          cases res2 with
          | error e2 =>
            simp only [startupAsgMinLoop, startupAsgMinStep, hl, if_neg hge, hrec, hup]
            refine ⟨fun h => Except.noConfusion h, ?_⟩
            intro e he
            obtain rfl : e2 = e := Except.error.inj he
            obtain ⟨t3, c0, hdec, hnone3, hc0⟩ := hrerr e2 rfl
            subst hdec
            refine ⟨.updateAsg g0.autoScalingGroupName (some (wrap32 ids0.length)) none :: t3,
              c0, by simp, ?_, hc0⟩
            intro c hc
            rcases List.mem_cons.mp hc with rfl | hc1
            · exact hupc _ hup
            · exact hnone3 c hc1
          | ok u2 =>
            cases u2
            simp only [startupAsgMinLoop, startupAsgMinStep, hl, if_neg hge, hrec, hup]
            refine ⟨?_, fun e he => Except.noConfusion he⟩
            intro _ c hc
            rcases List.mem_cons.mp hc with rfl | hc1
            · exact hupc _ hup
            · exact hrok rfl c hc1

theorem PrepareShutdown_callError_decomp (client : Client) (group : Group) :
    ((PrepareInstanceGroupForShutdown client group).1 = .ok () →
      ∀ c ∈ (PrepareInstanceGroupForShutdown client group).2, callError client c = none)
    ∧ (∀ e, (PrepareInstanceGroupForShutdown client group).1 = .error e →
      ∃ t2 c0, (PrepareInstanceGroupForShutdown client group).2 = t2 ++ [c0]
        ∧ (∀ c ∈ t2, callError client c = none)
        ∧ (callError client c0 = some e ∨ callError client c0 = none)) := by
  cases hd : client.describeAutoScalingInstances (group.instances.map Ec2Instance.instanceId) with
  | error e0 =>
    have hdsome : callError client
        (.describeAsgInstances (group.instances.map Ec2Instance.instanceId)) = some e0 := by
      simp only [callError, hd]
    simp only [PrepareInstanceGroupForShutdown, hd]
    refine ⟨fun h => Except.noConfusion h, ?_⟩
    intro e he
    obtain rfl : e0 = e := Except.error.inj he
    exact ⟨[], .describeAsgInstances (group.instances.map Ec2Instance.instanceId), rfl,
      fun c hc => absurd hc (by intro hx; cases hx), Or.inl hdsome⟩
  | ok out =>
    have hdnone : callError client
        (.describeAsgInstances (group.instances.map Ec2Instance.instanceId)) = none := by
      simp only [callError, hd]
    cases hA : (groupByAsg LifecycleStateNameInService out).isEmpty with
    | true =>
      simp only [PrepareInstanceGroupForShutdown, hd, hA]
      refine ⟨?_, fun e he => Except.noConfusion he⟩
      intro _ c hc
      have hcd : c = .describeAsgInstances (group.instances.map Ec2Instance.instanceId) := by
        simpa using hc
      subst hcd
      exact hdnone
    | false =>
      cases hgs : client.describeAutoScalingGroups
          ((groupByAsg LifecycleStateNameInService out).map Prod.fst) with
      | error e1 =>
        have hgsome : callError client (.describeAsgGroups
            ((groupByAsg LifecycleStateNameInService out).map Prod.fst)) = some e1 := by
          simp only [callError, hgs]
        simp only [PrepareInstanceGroupForShutdown, hd, hA, hgs]
        refine ⟨fun h => Except.noConfusion h, ?_⟩
        intro e he
        obtain rfl : e1 = e := Except.error.inj he
        refine ⟨[.describeAsgInstances (group.instances.map Ec2Instance.instanceId)],
          .describeAsgGroups ((groupByAsg LifecycleStateNameInService out).map Prod.fst),
          rfl, ?_, Or.inl hgsome⟩
        intro c hc
        have hcd : c = .describeAsgInstances (group.instances.map Ec2Instance.instanceId) := by
          simpa using hc
        subst hcd
        exact hdnone
      | ok asgGroups =>
        have hgnone : callError client (.describeAsgGroups
            ((groupByAsg LifecycleStateNameInService out).map Prod.fst)) = none := by
          simp only [callError, hgs]
        have hprenone : ∀ c ∈ [APICall.describeAsgInstances
              (group.instances.map Ec2Instance.instanceId),
            APICall.describeAsgGroups
              ((groupByAsg LifecycleStateNameInService out).map Prod.fst)],
            callError client c = none := by
          intro c hc
          rcases List.mem_cons.mp hc with rfl | hc1
          · exact hdnone
          · have hcd : c = .describeAsgGroups
                ((groupByAsg LifecycleStateNameInService out).map Prod.fst) := by
              simpa using hc1
            subst hcd
            exact hgnone
        obtain ⟨hlok, hlerr⟩ := shutdownAsgLoop_callError_decomp client
          (groupByAsg LifecycleStateNameInService out) asgGroups
        rcases hloop : shutdownAsgLoop client (groupByAsg LifecycleStateNameInService out)
            asgGroups with ⟨res, t, w⟩
        rw [hloop] at hlok hlerr
        dsimp only at hlok hlerr
        cases res with
        | error e2 =>
          simp only [PrepareInstanceGroupForShutdown, hd, hA, hgs, hloop]
          refine ⟨fun h => Except.noConfusion h, ?_⟩
          intro e he
          obtain rfl : e2 = e := Except.error.inj he
          obtain ⟨t3, c0, hdec, hnone3, hc0⟩ := hlerr e2 rfl
          subst hdec
          refine ⟨[APICall.describeAsgInstances (group.instances.map Ec2Instance.instanceId),
            APICall.describeAsgGroups
              ((groupByAsg LifecycleStateNameInService out).map Prod.fst)] ++ t3, c0,
            by simp, ?_, Or.inl hc0⟩
          intro c hc
          rcases List.mem_append.mp hc with hc1 | hc1
          · exact hprenone c hc1
          · exact hnone3 c hc1
        | ok u =>
          cases u
          have htnone : ∀ c ∈ t, callError client c = none := hlok rfl
          cases hw : w.isEmpty with
          | true =>
            simp only [PrepareInstanceGroupForShutdown, hd, hA, hgs, hloop, hw]
            refine ⟨?_, fun e he => Except.noConfusion he⟩
            intro _ c hc
            rcases List.mem_append.mp hc with hc1 | hc1
            · exact hprenone c hc1
            · exact htnone c hc1
          | false =>
            cases ho : (standbyWaiterWaitForOutput curatorWaiterOptions DefaultWaitDuration
                client.standbyProbes).outcome with
            | success o =>
              simp only [PrepareInstanceGroupForShutdown, hd, hA, hgs, hloop, hw, ho]
              refine ⟨?_, fun e he => Except.noConfusion he⟩
              intro _ c hc
              rcases List.mem_append.mp hc with hc1 | hc1
              · rcases List.mem_append.mp hc1 with hc2 | hc2
                · exact hprenone c hc2
                · exact htnone c hc2
              · have hcw : c = .standbyWait w := by simpa using hc1
                subst hcw
                rfl
            | failure e3 =>
              simp only [PrepareInstanceGroupForShutdown, hd, hA, hgs, hloop, hw, ho]
              refine ⟨fun h => Except.noConfusion h, ?_⟩
              intro e he
              obtain rfl : e3 = e := Except.error.inj he
              refine ⟨[APICall.describeAsgInstances
                  (group.instances.map Ec2Instance.instanceId),
                APICall.describeAsgGroups
                  ((groupByAsg LifecycleStateNameInService out).map Prod.fst)] ++ t,
                .standbyWait w, by simp, ?_, Or.inr rfl⟩
              intro c hc
              rcases List.mem_append.mp hc with hc1 | hc1
              · exact hprenone c hc1
              · exact htnone c hc1
            | outOfTrace =>
              simp only [PrepareInstanceGroupForShutdown, hd, hA, hgs, hloop, hw, ho]
              refine ⟨fun h => Except.noConfusion h, ?_⟩
              intro e he
              obtain rfl : "model: probe trace exhausted" = e := Except.error.inj he
              refine ⟨[APICall.describeAsgInstances
                  (group.instances.map Ec2Instance.instanceId),
                APICall.describeAsgGroups
                  ((groupByAsg LifecycleStateNameInService out).map Prod.fst)] ++ t,
                .standbyWait w, by simp, ?_, Or.inr rfl⟩
              intro c hc
              rcases List.mem_append.mp hc with hc1 | hc1
              · exact hprenone c hc1
              · exact htnone c hc1

theorem PrepareStartup_callError_decomp (client : Client) (group : Group) :
    ((PrepareInstanceGroupForStartup client group).1 = .ok () →
      ∀ c ∈ (PrepareInstanceGroupForStartup client group).2, callError client c = none)
    ∧ (∀ e, (PrepareInstanceGroupForStartup client group).1 = .error e →
      ∃ t2 c0, (PrepareInstanceGroupForStartup client group).2 = t2 ++ [c0]
        ∧ (∀ c ∈ t2, callError client c = none)
        ∧ (callError client c0 = some e ∨ callError client c0 = none)) := by
  cases hd : client.describeAutoScalingInstances (group.instances.map Ec2Instance.instanceId) with
  | error e0 =>
    have hdsome : callError client
        (.describeAsgInstances (group.instances.map Ec2Instance.instanceId)) = some e0 := by
      simp only [callError, hd]
    simp only [PrepareInstanceGroupForStartup, hd]
    refine ⟨fun h => Except.noConfusion h, ?_⟩
    intro e he
    obtain rfl : e0 = e := Except.error.inj he
    exact ⟨[], .describeAsgInstances (group.instances.map Ec2Instance.instanceId), rfl,
      fun c hc => absurd hc (by intro hx; cases hx), Or.inl hdsome⟩
  | ok out =>
    have hdnone : callError client
        (.describeAsgInstances (group.instances.map Ec2Instance.instanceId)) = none := by
      simp only [callError, hd]
    cases hA : (groupByAsg LifecycleStateNameStandby out).isEmpty with
    | true =>
      simp only [PrepareInstanceGroupForStartup, hd, hA]
      refine ⟨?_, fun e he => Except.noConfusion he⟩
      intro _ c hc
      have hcd : c = .describeAsgInstances (group.instances.map Ec2Instance.instanceId) := by
        simpa using hc
      subst hcd
      exact hdnone
    | false =>
      cases hgs : client.describeAutoScalingGroups
          ((groupByAsg LifecycleStateNameStandby out).map Prod.fst) with
      | error e1 =>
        have hgsome : callError client (.describeAsgGroups
            ((groupByAsg LifecycleStateNameStandby out).map Prod.fst)) = some e1 := by
          simp only [callError, hgs]
        simp only [PrepareInstanceGroupForStartup, hd, hA, hgs]
        refine ⟨fun h => Except.noConfusion h, ?_⟩
        intro e he
        obtain rfl : e1 = e := Except.error.inj he
        refine ⟨[.describeAsgInstances (group.instances.map Ec2Instance.instanceId)],
          .describeAsgGroups ((groupByAsg LifecycleStateNameStandby out).map Prod.fst),
          rfl, ?_, Or.inl hgsome⟩
        intro c hc
        have hcd : c = .describeAsgInstances (group.instances.map Ec2Instance.instanceId) := by
          simpa using hc
        subst hcd
        exact hdnone
      | ok asgGroups =>
        have hgnone : callError client (.describeAsgGroups
            ((groupByAsg LifecycleStateNameStandby out).map Prod.fst)) = none := by
          simp only [callError, hgs]
        have hprenone : ∀ c ∈ [APICall.describeAsgInstances
              (group.instances.map Ec2Instance.instanceId),
            APICall.describeAsgGroups
              ((groupByAsg LifecycleStateNameStandby out).map Prod.fst)],
            callError client c = none := by
          intro c hc
          rcases List.mem_cons.mp hc with rfl | hc1
          · exact hdnone
          · have hcd : c = .describeAsgGroups
                ((groupByAsg LifecycleStateNameStandby out).map Prod.fst) := by
              simpa using hc1
            subst hcd
            exact hgnone
        obtain ⟨hlok, hlerr⟩ := startupAsgExitLoop_callError_decomp client
          (groupByAsg LifecycleStateNameStandby out) asgGroups
        rcases hloop : startupAsgExitLoop client (groupByAsg LifecycleStateNameStandby out)
            asgGroups with ⟨res, t, w⟩
        rw [hloop] at hlok hlerr
        dsimp only at hlok hlerr
        cases res with
        | error e2 =>
          simp only [PrepareInstanceGroupForStartup, hd, hA, hgs, hloop]
          refine ⟨fun h => Except.noConfusion h, ?_⟩
          intro e he
          obtain rfl : e2 = e := Except.error.inj he
          obtain ⟨t3, c0, hdec, hnone3, hc0⟩ := hlerr e2 rfl
          subst hdec
          refine ⟨[APICall.describeAsgInstances (group.instances.map Ec2Instance.instanceId),
            APICall.describeAsgGroups
              ((groupByAsg LifecycleStateNameStandby out).map Prod.fst)] ++ t3, c0,
            by simp, ?_, Or.inl hc0⟩
          intro c hc
          rcases List.mem_append.mp hc with hc1 | hc1
          · exact hprenone c hc1
          · exact hnone3 c hc1
        | ok u =>
          cases u
          have htnone : ∀ c ∈ t, callError client c = none := hlok rfl
          cases hw : w.isEmpty with
          | true =>
            simp only [PrepareInstanceGroupForStartup, hd, hA, hgs, hloop, hw]
            refine ⟨?_, fun e he => Except.noConfusion he⟩
            intro _ c hc
            rcases List.mem_append.mp hc with hc1 | hc1
            · exact hprenone c hc1
            · exact htnone c hc1
          | false =>
            cases ho : (inServiceWaiterWaitForOutput curatorWaiterOptions DefaultWaitDuration
                client.inServiceProbes).outcome with
            | failure e3 =>
              simp only [PrepareInstanceGroupForStartup, hd, hA, hgs, hloop, hw, ho]
              refine ⟨fun h => Except.noConfusion h, ?_⟩
              intro e he
              obtain rfl : e3 = e := Except.error.inj he
              refine ⟨[APICall.describeAsgInstances
                  (group.instances.map Ec2Instance.instanceId),
                APICall.describeAsgGroups
                  ((groupByAsg LifecycleStateNameStandby out).map Prod.fst)] ++ t,
                .inServiceWait w, by simp, ?_, Or.inr rfl⟩
              intro c hc
              rcases List.mem_append.mp hc with hc1 | hc1
              · exact hprenone c hc1
              · exact htnone c hc1
            | outOfTrace =>
              simp only [PrepareInstanceGroupForStartup, hd, hA, hgs, hloop, hw, ho]
              refine ⟨fun h => Except.noConfusion h, ?_⟩
              intro e he
              obtain rfl : "model: probe trace exhausted" = e := Except.error.inj he
              refine ⟨[APICall.describeAsgInstances
                  (group.instances.map Ec2Instance.instanceId),
                APICall.describeAsgGroups
                  ((groupByAsg LifecycleStateNameStandby out).map Prod.fst)] ++ t,
                .inServiceWait w, by simp, ?_, Or.inr rfl⟩
              intro c hc
              rcases List.mem_append.mp hc with hc1 | hc1
              · exact hprenone c hc1
              · exact htnone c hc1
            | success o =>
              obtain ⟨hmok, hmerr⟩ := startupAsgMinLoop_callError_decomp client
                (groupByAsg LifecycleStateNameStandby out) asgGroups
              rcases hml : startupAsgMinLoop client (groupByAsg LifecycleStateNameStandby out)
                  asgGroups with ⟨res2, t2⟩
              rw [hml] at hmok hmerr
              dsimp only at hmok hmerr
              cases res2 with
              | error e4 =>
                simp only [PrepareInstanceGroupForStartup, hd, hA, hgs, hloop, hw, ho, hml]
                refine ⟨fun h => Except.noConfusion h, ?_⟩
                intro e he
                obtain rfl : e4 = e := Except.error.inj he
                obtain ⟨t3, c0, hdec, hnone3, hc0⟩ := hmerr e4 rfl
                subst hdec
                refine ⟨[APICall.describeAsgInstances
                    (group.instances.map Ec2Instance.instanceId),
                  APICall.describeAsgGroups
                    ((groupByAsg LifecycleStateNameStandby out).map Prod.fst)] ++ t
                  ++ [.inServiceWait w] ++ t3, c0, by simp, ?_, Or.inl hc0⟩
                intro c hc
                rcases List.mem_append.mp hc with hc1 | hc1
                · rcases List.mem_append.mp hc1 with hc2 | hc2
                  · rcases List.mem_append.mp hc2 with hc3 | hc3
                    · exact hprenone c hc3
                    · exact htnone c hc3
                  · have hcw : c = .inServiceWait w := by simpa using hc2
                    subst hcw
                    rfl
                · exact hnone3 c hc1
              | ok u2 =>
                cases u2
                simp only [PrepareInstanceGroupForStartup, hd, hA, hgs, hloop, hw, ho, hml]
                refine ⟨?_, fun e he => Except.noConfusion he⟩
                intro _ c hc
                rcases List.mem_append.mp hc with hc1 | hc1
                · rcases List.mem_append.mp hc1 with hc2 | hc2
                  · rcases List.mem_append.mp hc2 with hc3 | hc3
                    · exact hprenone c hc3
                    · exact htnone c hc3
                  · have hcw : c = .inServiceWait w := by simpa using hc2
                    subst hcw
                    rfl
                · exact hmok rfl c hc1

theorem processGroupShutdown_callError_decomp (client : Client) (sf : List String)
    (d : Bool) (group : Group) :
    ((processGroupShutdown client sf d group).1 = .ok () →
      ∀ c ∈ (processGroupShutdown client sf d group).2, callError client c = none)
    ∧ (∀ e, (processGroupShutdown client sf d group).1 = .error e →
      ∃ t2 c0, (processGroupShutdown client sf d group).2 = t2 ++ [c0]
        ∧ (∀ c ∈ t2, callError client c = none)
        ∧ (callError client c0 = some e ∨ callError client c0 = none)) := by
  cases hd : client.describeInstances (sf ++ group.filters ++ [instanceStateFilter]) with
  | error e0 =>
    have hdsome : callError client
        (.describeEc2Instances (sf ++ group.filters ++ [instanceStateFilter])) = some e0 := by
      simp only [callError, hd]
    simp only [processGroupShutdown, hd]
    refine ⟨fun h => Except.noConfusion h, ?_⟩
    intro e he
    obtain rfl : e0 = e := Except.error.inj he
    exact ⟨[], .describeEc2Instances (sf ++ group.filters ++ [instanceStateFilter]), rfl,
      fun c hc => absurd hc (by intro hx; cases hx), Or.inl hdsome⟩
  | ok instances =>
    have hdnone : callError client
        (.describeEc2Instances (sf ++ group.filters ++ [instanceStateFilter])) = none := by
      simp only [callError, hd]
    cases hi : instances.isEmpty with
    | true =>
      simp only [processGroupShutdown, hd, hi]
      refine ⟨?_, fun e he => Except.noConfusion he⟩
      intro _ c hc
      rcases List.mem_cons.mp hc with rfl | hc1
      · exact hdnone
      · have hcs : c = .skipReport group.name := by simpa using hc1
        subst hcs
        rfl
    | false =>
      have hbnone : ∀ c ∈ [APICall.describeEc2Instances
            (sf ++ group.filters ++ [instanceStateFilter]),
          APICall.groupReport group.name], callError client c = none := by
        intro c hc
        rcases List.mem_cons.mp hc with rfl | hc1
        · exact hdnone
        · have hcg : c = .groupReport group.name := by simpa using hc1
          subst hcg
          rfl
      cases d with
      | true =>
        simp only [processGroupShutdown, hd, hi]
        refine ⟨?_, fun e he => Except.noConfusion he⟩
        intro _ c hc
        exact hbnone c hc
      | false =>
        obtain ⟨hpok, hperr⟩ := PrepareShutdown_callError_decomp client
          { group with instances := instances }
        rcases hprep : PrepareInstanceGroupForShutdown client
            { group with instances := instances } with ⟨pres, pt⟩
        rw [hprep] at hpok hperr
        dsimp only at hpok hperr
        cases pres with
        | error ep =>
          simp only [processGroupShutdown, hd, hi, hprep]
          refine ⟨fun h => Except.noConfusion h, ?_⟩
          intro e he
          obtain rfl : ep = e := Except.error.inj he
          obtain ⟨t3, c0, hdec, hnone3, hc0⟩ := hperr ep rfl
          subst hdec
          refine ⟨[APICall.describeEc2Instances
              (sf ++ group.filters ++ [instanceStateFilter]),
            APICall.groupReport group.name] ++ t3, c0, by simp, ?_, hc0⟩
          intro c hc
          rcases List.mem_append.mp hc with hc1 | hc1
          · exact hbnone c hc1
          · exact hnone3 c hc1
        | ok u =>
          cases u
          have hptnone : ∀ c ∈ pt, callError client c = none := hpok rfl
          have hstc : ∀ e1, client.stopInstances (instances.map Ec2Instance.instanceId) = e1 →
              callError client (.stopInstances (instances.map Ec2Instance.instanceId)) =
                match e1 with
                | .error e2 => some e2
                | .ok _ => none := by
            intro e1 he1
            simp only [callError, he1]
          cases hst : client.stopInstances (instances.map Ec2Instance.instanceId) with
          | error e1 =>
            simp only [processGroupShutdown, hd, hi, hprep, hst]
            refine ⟨fun h => Except.noConfusion h, ?_⟩
            intro e he
            obtain rfl : e1 = e := Except.error.inj he
            refine ⟨[APICall.describeEc2Instances
                (sf ++ group.filters ++ [instanceStateFilter]),
              APICall.groupReport group.name] ++ pt,
              .stopInstances (instances.map Ec2Instance.instanceId), by simp, ?_,
              Or.inl (hstc _ hst)⟩
            intro c hc
            rcases List.mem_append.mp hc with hc1 | hc1
            · exact hbnone c hc1
            · exact hptnone c hc1
          | ok u2 =>
            cases u2
            have hwc : ∀ e1, client.stoppedWait (instances.map Ec2Instance.instanceId) = e1 →
                callError client (.ec2StoppedWait (instances.map Ec2Instance.instanceId)) =
                  match e1 with
                  | .error e2 => some e2
                  | .ok _ => none := by
              intro e1 he1
              simp only [callError, he1]
            cases hw2 : client.stoppedWait (instances.map Ec2Instance.instanceId) with
            | error e2 =>
              simp only [processGroupShutdown, hd, hi, hprep, hst, hw2]
              refine ⟨fun h => Except.noConfusion h, ?_⟩
              intro e he
              obtain rfl : e2 = e := Except.error.inj he
              refine ⟨[APICall.describeEc2Instances
                  (sf ++ group.filters ++ [instanceStateFilter]),
                APICall.groupReport group.name] ++ pt
                ++ [.stopInstances (instances.map Ec2Instance.instanceId)],
                .ec2StoppedWait (instances.map Ec2Instance.instanceId), by simp, ?_,
                Or.inl (hwc _ hw2)⟩
              intro c hc
              rcases List.mem_append.mp hc with hc1 | hc1
              · rcases List.mem_append.mp hc1 with hc2 | hc2
                · exact hbnone c hc2
                · exact hptnone c hc2
              · have hcs : c = .stopInstances (instances.map Ec2Instance.instanceId) := by
                  simpa using hc1
                subst hcs
                exact hstc _ hst
            | ok u3 =>
              cases u3
              simp only [processGroupShutdown, hd, hi, hprep, hst, hw2]
              refine ⟨?_, fun e he => Except.noConfusion he⟩
              intro _ c hc
              rcases List.mem_append.mp hc with hc1 | hc1
              · rcases List.mem_append.mp hc1 with hc2 | hc2
                · exact hbnone c hc2
                · exact hptnone c hc2
              · rcases List.mem_cons.mp hc1 with rfl | hc2
                · exact hstc _ hst
                · have hcw : c = .ec2StoppedWait (instances.map Ec2Instance.instanceId) := by
                    simpa using hc2
                  subst hcw
                  exact hwc _ hw2

theorem processGroupStartup_callError_scoped (client : Client) (sf : List String)
    (d : Bool) (group : Group) :
    ∀ (j : Nat) (c : APICall) (e : String),
      (processGroupStartup client sf d group).2[j]? = some c →
      callError client c = some e →
      (∃ (i : Nat) (ids : List String), i < j ∧
        (processGroupStartup client sf d group).2[i]? = some (APICall.ec2StatusWait ids))
      ∨ ((processGroupStartup client sf d group).1 = .error e
        ∧ j + 1 = (processGroupStartup client sf d group).2.length) := by
  intro j c e hj he
  cases hd : client.describeInstances (sf ++ (group.filters ++ [instanceStateFilter])) with
  | error e0 =>
    have hdsome : callError client
        (.describeEc2Instances (sf ++ (group.filters ++ [instanceStateFilter]))) = some e0 := by
      simp only [callError, hd]
    have hq : processGroupStartup client sf d group = (.error e0,
        [APICall.describeEc2Instances (sf ++ (group.filters ++ [instanceStateFilter]))]) := by
      simp [processGroupStartup, hd]
    rw [hq] at hj ⊢
    dsimp only at hj ⊢
    cases j with
    | zero =>
      obtain rfl : APICall.describeEc2Instances (sf ++ (group.filters ++ [instanceStateFilter]))
          = c := Option.some.inj hj
      rw [hdsome] at he
      obtain rfl : e0 = e := Option.some.inj he
      exact Or.inr ⟨rfl, rfl⟩
    | succ n =>
      exact Option.noConfusion hj
  | ok instances =>
    have hdnone : callError client
        (.describeEc2Instances (sf ++ (group.filters ++ [instanceStateFilter]))) = none := by
      simp only [callError, hd]
    cases hi : instances.isEmpty with
    | true =>
      have hq : processGroupStartup client sf d group = (.ok (),
          [APICall.describeEc2Instances (sf ++ (group.filters ++ [instanceStateFilter])),
            APICall.skipReport group.name]) := by
        simp [processGroupStartup, hd, hi]
      rw [hq] at hj
      dsimp only at hj
      have hmem := getElem?_mem_trace hj
      rcases List.mem_cons.mp hmem with rfl | hmem
      · rw [hdnone] at he
        exact Option.noConfusion he
      · have hcs : c = .skipReport group.name := by simpa using hmem
        subst hcs
        exact Option.noConfusion he
    | false =>
      cases d with
      | true =>
        have hq : processGroupStartup client sf true group = (.ok (),
            [APICall.describeEc2Instances (sf ++ (group.filters ++ [instanceStateFilter])),
              APICall.groupReport group.name]) := by
          simp [processGroupStartup, hd, hi]
        rw [hq] at hj
        dsimp only at hj
        have hmem := getElem?_mem_trace hj
        rcases List.mem_cons.mp hmem with rfl | hmem
        · rw [hdnone] at he
          exact Option.noConfusion he
        · have hcg : c = .groupReport group.name := by simpa using hmem
          subst hcg
          exact Option.noConfusion he
      | false =>
        have hstc : ∀ e1, client.startInstances (instances.map Ec2Instance.instanceId) = e1 →
            callError client (.startInstances (instances.map Ec2Instance.instanceId)) =
              match e1 with
              | .error e2 => some e2
              | .ok _ => none := by
          intro e1 he1
          simp only [callError, he1]
        cases hst : client.startInstances (instances.map Ec2Instance.instanceId) with
        | error e1 =>
          have hq : processGroupStartup client sf false group = (.error e1,
              [APICall.describeEc2Instances (sf ++ (group.filters ++ [instanceStateFilter])),
                APICall.groupReport group.name,
                APICall.startInstances (instances.map Ec2Instance.instanceId)]) := by
            simp [processGroupStartup, hd, hi, hst]
          rw [hq] at hj ⊢
          dsimp only at hj ⊢
          have hmem := getElem?_mem_trace hj
          rcases List.mem_cons.mp hmem with rfl | hmem
          · rw [hdnone] at he
            exact Option.noConfusion he
          rcases List.mem_cons.mp hmem with rfl | hmem
          · exact Option.noConfusion he
          have hcs : c = .startInstances (instances.map Ec2Instance.instanceId) := by
            simpa using hmem
          subst hcs
          rw [hstc _ hst] at he
          obtain rfl : e1 = e := Option.some.inj he
          have hj2 : j = 2 := by
            cases j with
            | zero => exact APICall.noConfusion (Option.some.inj hj)
            | succ j1 =>
              cases j1 with
              | zero => exact APICall.noConfusion (Option.some.inj hj)
              | succ j2 =>
                cases j2 with
                | zero => rfl
                | succ j3 => exact Option.noConfusion hj
          subst hj2
          exact Or.inr ⟨rfl, rfl⟩
        | ok u =>
          cases u
          have hwc : ∀ e1, client.statusOkWait (instances.map Ec2Instance.instanceId) = e1 →
              callError client (.ec2StatusWait (instances.map Ec2Instance.instanceId)) =
                match e1 with
                | .error e2 => some e2
                | .ok _ => none := by
            intro e1 he1
            simp only [callError, he1]
          cases hw : client.statusOkWait (instances.map Ec2Instance.instanceId) with
          | error e2 =>
            have hq : processGroupStartup client sf false group = (.error e2,
                [APICall.describeEc2Instances (sf ++ (group.filters ++ [instanceStateFilter])),
                  APICall.groupReport group.name,
                  APICall.startInstances (instances.map Ec2Instance.instanceId),
                  APICall.ec2StatusWait (instances.map Ec2Instance.instanceId)]) := by
              simp [processGroupStartup, hd, hi, hst, hw]
            rw [hq] at hj ⊢
            dsimp only at hj ⊢
            have hmem := getElem?_mem_trace hj
            rcases List.mem_cons.mp hmem with rfl | hmem
            · rw [hdnone] at he
              exact Option.noConfusion he
            rcases List.mem_cons.mp hmem with rfl | hmem
            · exact Option.noConfusion he
            rcases List.mem_cons.mp hmem with rfl | hmem
            · rw [hstc _ hst] at he
              exact Option.noConfusion he
            have hcw : c = .ec2StatusWait (instances.map Ec2Instance.instanceId) := by
              simpa using hmem
            subst hcw
            rw [hwc _ hw] at he
            obtain rfl : e2 = e := Option.some.inj he
            have hj3 : j = 3 := by
              cases j with
              | zero => exact APICall.noConfusion (Option.some.inj hj)
              | succ j1 =>
                cases j1 with
                | zero => exact APICall.noConfusion (Option.some.inj hj)
                | succ j2 =>
                  cases j2 with
                  | zero => exact APICall.noConfusion (Option.some.inj hj)
                  | succ j3 =>
                    cases j3 with
                    | zero => rfl
                    | succ j4 => exact Option.noConfusion hj
            subst hj3
            exact Or.inr ⟨rfl, rfl⟩
          | ok u2 =>
            cases u2
            have hq : processGroupStartup client sf false group = (.ok (),
                [APICall.describeEc2Instances (sf ++ (group.filters ++ [instanceStateFilter])),
                  APICall.groupReport group.name,
                  APICall.startInstances (instances.map Ec2Instance.instanceId),
                  APICall.ec2StatusWait (instances.map Ec2Instance.instanceId)]
                ++ (PrepareInstanceGroupForStartup client
                    { group with instances := instances }).2) := by
              simp [processGroupStartup, hd, hi, hst, hw]
            rw [hq] at hj ⊢
            dsimp only at hj ⊢
            rw [List.getElem?_append] at hj
            by_cases hlt : j < ([APICall.describeEc2Instances
                  (sf ++ (group.filters ++ [instanceStateFilter])),
                APICall.groupReport group.name,
                APICall.startInstances (instances.map Ec2Instance.instanceId),
                APICall.ec2StatusWait (instances.map Ec2Instance.instanceId)] :
                  List APICall).length
            · rw [if_pos hlt] at hj
              have hmem := getElem?_mem_trace hj
              rcases List.mem_cons.mp hmem with rfl | hmem
              · rw [hdnone] at he
                exact Option.noConfusion he
              rcases List.mem_cons.mp hmem with rfl | hmem
              · exact Option.noConfusion he
              rcases List.mem_cons.mp hmem with rfl | hmem
              · rw [hstc _ hst] at he
                exact Option.noConfusion he
              have hcw : c = .ec2StatusWait (instances.map Ec2Instance.instanceId) := by
                simpa using hmem
              subst hcw
              rw [hwc _ hw] at he
              exact Option.noConfusion he
            · refine Or.inl ⟨3, instances.map Ec2Instance.instanceId, ?_, ?_⟩
              · have hlen : ([APICall.describeEc2Instances
                      (sf ++ (group.filters ++ [instanceStateFilter])),
                    APICall.groupReport group.name,
                    APICall.startInstances (instances.map Ec2Instance.instanceId),
                    APICall.ec2StatusWait (instances.map Ec2Instance.instanceId)] :
                      List APICall).length = 4 := rfl
                rw [hlen] at hlt
                omega
              · rw [List.getElem?_append, if_pos (by simp)]
                rfl

/-- Claim C3 (amended): a failing describe or mutate call invoked directly by
the capacity controller or the sequencer is propagated immediately — the
operation aborts with exactly that error and the failing call is the last
entry of its trace.  This holds for every call recorded by
`PrepareInstanceGroupForShutdown`, `PrepareInstanceGroupForStartup` and
`processGroupShutdown`; in `processGroupStartup` it holds for every call up
to the status wait, while a later failing call belongs to the
capacity-controller invocation (covered by the `PrepareInstanceGroupForStartup`
conjunct) whose abort the sequencer discards.  By contrast, a
describe-instances failure inside a lifecycle wait is not propagated: both
lifecycle retryable predicates classify a probe error as continue-retrying. -/
theorem remote_error_propagation (client : Client) (group : Group) :
    (∀ e2, autoScalingInstanceStandbyStateRetryable (.error e2) = (true, none))
    ∧ (∀ e2, AutoScalingInstanceInServiceStateRetryable (.error e2) = (true, none))
    ∧ (∀ (j : Nat) (c : APICall) (e : String),
        (PrepareInstanceGroupForShutdown client group).2[j]? = some c →
        callError client c = some e →
        (PrepareInstanceGroupForShutdown client group).1 = .error e
        ∧ j + 1 = (PrepareInstanceGroupForShutdown client group).2.length)
    ∧ (∀ (j : Nat) (c : APICall) (e : String),
        (PrepareInstanceGroupForStartup client group).2[j]? = some c →
        callError client c = some e →
        (PrepareInstanceGroupForStartup client group).1 = .error e
        ∧ j + 1 = (PrepareInstanceGroupForStartup client group).2.length)
    ∧ (∀ (sf : List String) (d : Bool) (j : Nat) (c : APICall) (e : String),
        (processGroupShutdown client sf d group).2[j]? = some c →
        callError client c = some e →
        (processGroupShutdown client sf d group).1 = .error e
        ∧ j + 1 = (processGroupShutdown client sf d group).2.length)
    ∧ (∀ (sf : List String) (d : Bool) (j : Nat) (c : APICall) (e : String),
        (processGroupStartup client sf d group).2[j]? = some c →
        callError client c = some e →
        (∃ (i : Nat) (ids : List String), i < j ∧
          (processGroupStartup client sf d group).2[i]? = some (APICall.ec2StatusWait ids))
        ∨ ((processGroupStartup client sf d group).1 = .error e
          ∧ j + 1 = (processGroupStartup client sf d group).2.length)) :=
  ⟨fun _ => rfl, fun _ => rfl,
    callError_last client (PrepareInstanceGroupForShutdown client group).1
      (PrepareInstanceGroupForShutdown client group).2
      (PrepareShutdown_callError_decomp client group).1
      (PrepareShutdown_callError_decomp client group).2,
    callError_last client (PrepareInstanceGroupForStartup client group).1
      (PrepareInstanceGroupForStartup client group).2
      (PrepareStartup_callError_decomp client group).1
      (PrepareStartup_callError_decomp client group).2,
    fun sf d => callError_last client (processGroupShutdown client sf d group).1
      (processGroupShutdown client sf d group).2
      (processGroupShutdown_callError_decomp client sf d group).1
      (processGroupShutdown_callError_decomp client sf d group).2,
    fun sf d => processGroupStartup_callError_scoped client sf d group⟩

/-- Witness for the amended C3 at a concrete input: the failing head describe
of `failingPrepClient` aborts `PrepareInstanceGroupForShutdown` with exactly
that error, as the last (and only) recorded call. -/
theorem remote_error_propagation_applied :
    (PrepareInstanceGroupForShutdown failingPrepClient ⟨"g1", [], [⟨"i1"⟩]⟩).1 =
      .error "asg describe failure"
    ∧ 0 + 1 = (PrepareInstanceGroupForShutdown failingPrepClient ⟨"g1", [], [⟨"i1"⟩]⟩).2.length :=
  (remote_error_propagation failingPrepClient ⟨"g1", [], [⟨"i1"⟩]⟩).2.2.1 0
    (.describeAsgInstances ["i1"]) "asg describe failure" rfl rfl

end Curator
